import Mathlib

/-!
Shallow embedding of the core of the Osaka/Prague EVM execution engine:
the interpreter loop (`execute_code`), the call/create engine
(`process_message_call`, `process_create_message`, `process_message`,
`generic_call`, `generic_create`), the system opcodes
(CALL/CALLCODE/DELEGATECALL/STATICCALL/CREATE/CREATE2/SELFDESTRUCT/
RETURN/REVERT), and the child-frame merge functions
(`incorporate_child_on_success` / `incorporate_child_on_error`).

Mutation is embedded as explicit threading of the `Evm` frame and the
world `State`; Python exceptions become explicit result constructors
carrying the frame and state as they stood when the exception was
raised; the mutually recursive interpreter family is made total by a
fuel parameter (`.oof` marks fuel exhaustion, distinguishable from
every real outcome).  Machine integers are `Nat` (Python `Uint`/`U256`
are non-negative and the embedded code paths never underflow), and the
per-transaction sets are association-free lists with set-style insert.
-/

namespace EvmSpec

/-! ## List-as-set helpers (Python `set.add` / `set.update`) -/

/-- Insert an element into a list used as a set (no duplicate added). -/
def setAdd {α : Type} [DecidableEq α] (l : List α) (x : α) : List α :=
  if x ∈ l then l else l ++ [x]

/-- Add every element of `src` into `dst` (Python `set.update`). -/
def setUpdate {α : Type} [DecidableEq α] : List α → List α → List α
  | d, [] => d
  | d, x :: s => setUpdate (setAdd d x) s

theorem mem_setAdd {α : Type} [DecidableEq α] (l : List α) (x y : α) :
    y ∈ setAdd l x ↔ y ∈ l ∨ y = x := by
  unfold setAdd
  split
  · constructor
    · exact fun h => Or.inl h
    · rintro (h | rfl)
      · exact h
      · assumption
  · simp

theorem mem_setUpdate {α : Type} [DecidableEq α] (s d : List α) (y : α) :
    y ∈ setUpdate d s ↔ y ∈ d ∨ y ∈ s := by
  induction s generalizing d with
  | nil => simp [setUpdate]
  | cons x s ih =>
      simp only [setUpdate, ih, mem_setAdd, List.mem_cons]
      tauto

/-! ## Accounts and world state

Modelled from the spec: the world-state store itself is an external
collaborator (spec section 6 lists its capability contract:
`get_account`, `account_has_code_or_nonce`, `account_has_storage`,
`is_account_alive`, `increment_nonce`, `set_code`,
`set_account_balance`, `move_ether`, `destroy_storage`,
`mark_account_created`, `begin_transaction`, `commit_transaction`,
`rollback_transaction`, and an observable `created_accounts` set).
Accounts are kept in an association list keyed by address; a missing
account reads as the distinguished empty account.  The transient
storage handle shares the same transactional discipline and is never
observed by the claims under proof, so it is not carried separately. -/

/-- Addresses are 20-byte values, embedded as `Nat`. -/
abbrev Address := Nat

/-- An account: nonce, balance, code and (abstracted) storage. -/
structure Account where
  nonce : Nat
  balance : Nat
  code : List Nat
  storage : List (Nat × Nat)
deriving DecidableEq

/-- Modelled from the spec: the distinguished empty account. -/
def EMPTY_ACCOUNT : Account := ⟨0, 0, [], []⟩

/-- The snapshot-free part of the world state. -/
structure StateCore where
  accounts : List (Address × Account)
  created_accounts : List Address
deriving DecidableEq

/-- The world state: current core plus the stack of snapshots taken by
`begin_transaction` and resolved by `commit_transaction` /
`rollback_transaction`. -/
structure State where
  core : StateCore
  snapshots : List StateCore
deriving DecidableEq

/-- Replace the binding of `a` in an association list (or append it). -/
def updAccounts : List (Address × Account) → Address → Account → List (Address × Account)
  | [], a, acct => [(a, acct)]
  | (k, v) :: rest, a, acct =>
      if k = a then (a, acct) :: rest else (k, v) :: updAccounts rest a acct

/-- Look an account up, `none` when absent. -/
def lookupAccount (st : State) (a : Address) : Option Account :=
  (st.core.accounts.find? (fun p => p.1 = a)).map (fun p => p.2)

/-- Modelled from the spec: `get_account`; a missing account reads as
the empty account. -/
def get_account (st : State) (a : Address) : Account :=
  (lookupAccount st a).getD EMPTY_ACCOUNT

/-- Write an account back into the state. -/
def set_account (st : State) (a : Address) (acct : Account) : State :=
  { st with core := { st.core with accounts := updAccounts st.core.accounts a acct } }

/-- Modelled from the spec: true when the account has code or a
non-zero nonce. -/
def account_has_code_or_nonce (st : State) (a : Address) : Bool :=
  (get_account st a).code ≠ [] || (get_account st a).nonce ≠ 0

/-- Modelled from the spec: true when the account has storage. -/
def account_has_storage (st : State) (a : Address) : Bool :=
  (get_account st a).storage ≠ []

/-- Modelled from the spec (glossary): alive = exists and is not the
empty account (nonce 0, balance 0, empty code). -/
def is_account_alive (st : State) (a : Address) : Bool :=
  match lookupAccount st a with
  | none => false
  | some acct => ¬(acct.nonce = 0 ∧ acct.balance = 0 ∧ acct.code = [])

/-- Modelled from the spec: `increment_nonce`. -/
def increment_nonce (st : State) (a : Address) : State :=
  set_account st a { get_account st a with nonce := (get_account st a).nonce + 1 }

/-- Modelled from the spec: `set_account_balance`. -/
def set_account_balance (st : State) (a : Address) (v : Nat) : State :=
  set_account st a { get_account st a with balance := v }

/-- Modelled from the spec: `set_code`. -/
def set_code (st : State) (a : Address) (c : List Nat) : State :=
  set_account st a { get_account st a with code := c }

/-- Modelled from the spec: `destroy_storage`. -/
def destroy_storage (st : State) (a : Address) : State :=
  set_account st a { get_account st a with storage := [] }

/-- Modelled from the spec: `mark_account_created` records the address
in the observable `created_accounts` set. -/
def mark_account_created (st : State) (a : Address) : State :=
  { st with core := { st.core with created_accounts := setAdd st.core.created_accounts a } }

/-- Modelled from the spec: `move_ether` debits the sender then credits
the recipient; it is the one fallible state operation (insufficient
balance). -/
def move_ether (st : State) (sender recipient : Address) (amount : Nat) : Option State :=
  let sa := get_account st sender
  if sa.balance < amount then none
  else
    let st1 := set_account st sender { sa with balance := sa.balance - amount }
    let ra := get_account st1 recipient
    some (set_account st1 recipient { ra with balance := ra.balance + amount })

/-- Modelled from the spec: snapshot the state (transient storage is
snapshotted alongside and is not separately observed here). -/
def begin_transaction (st : State) : State :=
  ⟨st.core, st.core :: st.snapshots⟩

/-- Modelled from the spec: discard the innermost snapshot, keeping the
current core. -/
def commit_transaction (st : State) : State :=
  ⟨st.core, st.snapshots.tail⟩

/-- Modelled from the spec: restore the innermost snapshot. -/
def rollback_transaction (st : State) : State :=
  match st.snapshots with
  | [] => ⟨st.core, []⟩
  | c :: rest => ⟨c, rest⟩

/-! ## Errors

The exception hierarchy of `vm/exceptions.py` (not under the provided
sources) collapsed to its observable kinds: every raised error is
either one of the exceptional halts or `Revert`, exactly the split the
interpreter's two catch clauses make. -/

/-- The error kinds raised by the embedded code. -/
inductive EvmError where
  | outOfGas
  | invalidOpcode
  | invalidJumpDest
  | stackUnderflow
  | stackOverflow
  | outOfBoundsRead
  | writeInStaticContext
  | invalidContractByte
  | stackDepthLimit
  | insufficientBalance
  | addressCollision
  | revertError
deriving DecidableEq

/-- Exceptional halts are every raised error other than `Revert`. -/
def EvmError.isExceptionalHalt (e : EvmError) : Bool :=
  e ≠ EvmError.revertError

/-! ## Transaction environment, message and frame -/

/-- A log entry (opaque payload; the embedded code only concatenates
logs). -/
structure Log where
  payload : List Nat
deriving DecidableEq

/-- The part of `TransactionEnvironment` the embedded code reads: the
EIP-7702 authorization list (entries are opaque here; only emptiness is
tested, their processing is the external `set_delegation`). -/
structure TxEnv where
  authorizations : List Nat
deriving DecidableEq

/-- `Message` from `osaka/vm/__init__.py`.  `target = none` is the
`Bytes0` create marker.  The world state (reached in Python through
`block_env.state`) is threaded explicitly beside the message, and the
non-owning `parent_evm` back-reference is dropped (it is written but
never read by the embedded code). -/
structure Message where
  tx_env : TxEnv
  caller : Address
  target : Option Address
  current_target : Address
  gas : Nat
  value : Nat
  data : List Nat
  code_address : Option Address
  code : List Nat
  depth : Nat
  should_transfer_value : Bool
  is_static : Bool
  accessed_addresses : List Address
  accessed_storage_keys : List (Address × Nat)
  disable_precompiles : Bool
  warm_code_addresses : List Address
deriving DecidableEq

/-- `Evm` from `osaka/vm/__init__.py`: the per-frame mutable state. -/
structure Evm where
  pc : Nat
  stack : List Nat
  memory : List Nat
  code : List Nat
  gas_left : Nat
  valid_jump_destinations : List Nat
  logs : List Log
  refund_counter : Int
  running : Bool
  message : Message
  output : List Nat
  accounts_to_delete : List Address
  return_data : List Nat
  error : Option EvmError
  accessed_addresses : List Address
  accessed_storage_keys : List (Address × Nat)
  warm_code_addresses : List Address
deriving DecidableEq

/-- `MessageCallOutput` from `prague/vm/interpreter.py` (the refund
counter is kept signed, the top-level driver's unsigned conversion is
outside the embedded core). -/
structure MessageCallOutput where
  gas_left : Nat
  refund_counter : Int
  logs : List Log
  accounts_to_delete : List Address
  error : Option EvmError
  return_data : List Nat
deriving DecidableEq

/-! ## Gas (modelled from the spec, section 4.A; `vm/gas.py` is not
under the provided sources) -/

def GAS_ZERO : Nat := 0
def GAS_VERY_LOW : Nat := 3
def GAS_CALL_VALUE : Nat := 9000
def GAS_CALL_STIPEND : Nat := 2300
def GAS_NEW_ACCOUNT : Nat := 25000
def GAS_CREATE : Nat := 32000
def GAS_KECCAK256_WORD : Nat := 6
def GAS_SELF_DESTRUCT : Nat := 5000
def GAS_SELF_DESTRUCT_NEW_ACCOUNT : Nat := 25000
def GAS_WARM_ACCESS : Nat := 100
def GAS_COLD_ACCOUNT_ACCESS : Nat := 2600
def GAS_CODE_DEPOSIT : Nat := 200
def STACK_DEPTH_LIMIT : Nat := 1024
def MAX_CODE_SIZE : Nat := 0x6000
def MAX_INIT_CODE_SIZE : Nat := 2 * MAX_CODE_SIZE

/-- Round up to the next multiple of 32. -/
def ceil32 (n : Nat) : Nat := 32 * ((n + 31) / 32)

/-- Modelled from the spec: memory cost `3·w + w²/512` for `w` words. -/
def memoryGasCost (sizeBytes : Nat) : Nat :=
  let w := sizeBytes / 32
  3 * w + w * w / 512

/-- Result of `calculate_gas_extend_memory`. -/
structure ExtendMemory where
  cost : Nat
  expand_by : Nat
deriving DecidableEq

/-- Modelled from the spec: the new memory length is the maximum of the
current length and `ceil32(offset+size)` over the regions with
`size > 0`; the cost is the word-cost delta (a region that would
overflow raises OutOfGas in the spec, which here surfaces when the
resulting cost is charged). -/
def calculate_gas_extend_memory (memory : List Nat) (extensions : List (Nat × Nat)) :
    ExtendMemory :=
  let cur := memory.length
  let target := extensions.foldl
    (fun acc p => if p.2 = 0 then acc else max acc (ceil32 (p.1 + p.2))) cur
  ⟨memoryGasCost target - memoryGasCost cur, target - cur⟩

/-- Result of `calculate_message_call_gas`. -/
structure MessageCallGas where
  cost : Nat
  sub_call : Nat
deriving DecidableEq

/-- Modelled from the spec (EIP-150): `available = gas_left − extra −
extend`; negative available is OutOfGas; the forwarded gas is
`min(gas, available − available/64)` plus a 2300 stipend when value is
transferred; the charged cost is the extra fee plus the forwarded gas
without the stipend. -/
def calculate_message_call_gas (value gas gas_left extend_cost extra_gas : Nat) :
    Except Unit MessageCallGas :=
  if gas_left < extra_gas + extend_cost then Except.error ()
  else
    let available := gas_left - extra_gas - extend_cost
    let base := min gas (available - available / 64)
    let stipend := if value = 0 then 0 else GAS_CALL_STIPEND
    Except.ok ⟨extra_gas + base, base + stipend⟩

/-- Modelled from the spec (EIP-150): the largest forwardable gas,
`gas − gas/64`. -/
def max_message_call_gas (gas : Nat) : Nat := gas - gas / 64

/-- Modelled from the spec: `2 · ceil32(size)/32`. -/
def init_code_cost (size : Nat) : Nat := 2 * (ceil32 size / 32)

/-- Modelled from the spec: code-access cost `2 · ceil32(len)/32`,
charged once per address per frame. -/
def code_access_cost (code : List Nat) : Nat := 2 * (ceil32 code.length / 32)

/-- Modelled from the spec: charge gas, raising OutOfGas (here `none`,
with the frame untouched) when `gas_left` would go negative. -/
def charge_gas (evm : Evm) (amount : Nat) : Option Evm :=
  if evm.gas_left < amount then none
  else some { evm with gas_left := evm.gas_left - amount }

/-! ## Stack and memory (modelled from the spec; `vm/stack.py` and
`vm/memory.py` are not under the provided sources) -/

/-- Modelled from the spec: push, raising StackOverflow past 1024
elements.  The stack top is the list head. -/
def stackPush (stack : List Nat) (v : Nat) : Option (List Nat) :=
  if stack.length < STACK_DEPTH_LIMIT then some (v :: stack) else none

/-- Modelled from the spec: `memory_read_bytes` is the byte slice
`memory[start .. start+size]` (callers expand memory first). -/
def memory_read_bytes (memory : List Nat) (start size : Nat) : List Nat :=
  (memory.drop start).take size

/-- Modelled from the spec: `memory_write` overwrites
`memory[start .. start+len(data)]` (callers expand memory first). -/
def memory_write (memory : List Nat) (start : Nat) (data : List Nat) : List Nat :=
  memory.take start ++ data ++ memory.drop (start + data.length)

/-- Modelled from the spec: `to_address` keeps the low 20 bytes of a
256-bit word. -/
def to_address (u : Nat) : Address := u % 2 ^ 160

/-- Big-endian bytes to a number. -/
def beBytesToNat (bs : List Nat) : Nat :=
  bs.foldl (fun acc b => acc * 256 + b) 0

/-! ## EOA delegation and precompile dispatch surface -/

/-- Modelled from the spec (wire format, section 6): the EIP-7702
delegation designator is exactly the 3 bytes 0xEF 0x01 0x00 followed by
20 address bytes. -/
def get_delegated_code_address (code : List Nat) : Option Address :=
  if code.length = 23 ∧ code.take 3 = [0xEF, 0x01, 0x00] then
    some (beBytesToNat (code.drop 3))
  else none

/-- Modelled from the spec (section 6): precompile addresses are
0x01..0x11; `code_address = none` is never a precompile. -/
def isPrecompileAddress (a : Option Address) : Bool :=
  match a with
  | none => false
  | some x => 1 ≤ x && x ≤ 0x11

/-- Modelled from the spec (section 4.E.5 step 4,
`vm/eoa_delegation.py` is not under the provided sources): when the
code at `code_address` is a delegation designator, decode the inner
address, charge its warm/cold account-access fee (adding it to
`accessed_addresses` when cold), and dispatch to the inner code with
precompiles disabled.  Returns
`(disable_precompiles, code_address, code, extra fee, updated frame)`. -/
def access_delegation (evm : Evm) (st : State) (code_address : Address) :
    Bool × Address × List Nat × Nat × Evm :=
  let code := (get_account st code_address).code
  match get_delegated_code_address code with
  | none => (false, code_address, code, 0, evm)
  | some inner =>
      if inner ∈ evm.accessed_addresses then
        (true, inner, (get_account st inner).code, GAS_WARM_ACCESS, evm)
      else
        (true, inner, (get_account st inner).code, GAS_COLD_ACCOUNT_ACCESS,
          { evm with accessed_addresses := setAdd evm.accessed_addresses inner })

/-- The inline warm/cold account-access block the system opcodes share:
charge 100 when the address is already accessed, else 2600 and record
the access. -/
def accountAccessFee (evm : Evm) (a : Address) : Nat × Evm :=
  if a ∈ evm.accessed_addresses then (GAS_WARM_ACCESS, evm)
  else (GAS_COLD_ACCOUNT_ACCESS, { evm with accessed_addresses := setAdd evm.accessed_addresses a })

/-- The inline per-frame code-access block the system opcodes share:
the first touch of an address's code in a frame adds it to
`warm_code_addresses` and charges `code_access_cost`. -/
def codeAccessFee (evm : Evm) (st : State) (a : Address) : Nat × Evm :=
  if a ∈ evm.warm_code_addresses then (0, evm)
  else (code_access_cost (get_account st a).code,
    { evm with warm_code_addresses := setAdd evm.warm_code_addresses a })

/-! ## Valid jump destinations (`vm/runtime.py` is not under the
provided sources) -/

/-- Modelled from the spec (section 4.D step 2): linear scan collecting
each `JUMPDEST (0x5B)` byte that is not inside a `PUSH1..PUSH32`
immediate.  The extra `Nat` bound makes the recursion structural; it is
instantiated with the code length, which the scan never exhausts. -/
def jumpDestScan : Nat → List Nat → Nat → List Nat
  | 0, _, _ => []
  | _ + 1, [], _ => []
  | b + 1, op :: rest, pc =>
      if op = 0x5B then pc :: jumpDestScan b rest (pc + 1)
      else if 0x60 ≤ op ∧ op ≤ 0x7F then
        let k := op - 0x5F
        jumpDestScan b (rest.drop k) (pc + k + 1)
      else jumpDestScan b rest (pc + 1)

/-- `get_valid_jump_destinations` over the code bytes. -/
def get_valid_jump_destinations (code : List Nat) : List Nat :=
  jumpDestScan code.length code 0

/-! ## Result types

A Python opcode handler mutates `evm` in place and may raise; an
uncaught exception leaves the frame and state exactly as mutated so
far, which the enclosing catch observes.  `StepResult.err` therefore
carries the frame and the state as they stood at the raise.  `oof`
marks fuel exhaustion of the embedding and corresponds to no program
behaviour. -/

/-- Outcome of an opcode handler or of the interpreter loop. -/
inductive StepResult where
  | ok (evm : Evm) (st : State)
  | err (e : EvmError) (evm : Evm) (st : State)
  | oof
deriving DecidableEq

/-- Outcome of `process_message` / `process_create_message` /
`execute_code`: a finished frame, or an exception raised past the frame
boundary (`StackDepthLimitError`, a failed `move_ether`). -/
inductive PMResult where
  | ok (evm : Evm) (st : State)
  | raised (e : EvmError) (st : State)
  | oof
deriving DecidableEq

/-- Outcome of `process_message_call`. -/
inductive MCResult where
  | ok (out : MessageCallOutput) (st : State)
  | raised (e : EvmError) (st : State)
  | oof
deriving DecidableEq

/-- Modelled from the spec: the external collaborators the core calls
but whose bodies are out of the spec's scope — precompile bodies
(section 6 gives only their dispatch interface `(Evm) → void`, raising
like any handler), EIP-7702 authorization processing (`set_delegation`
returns a refund contribution and mutates accounts), and the
keccak/rlp-based contract-address derivations of section 4.E.4. -/
structure ExtFuns where
  precompileImpl : Address → Evm → Except (EvmError × Evm) Evm
  set_delegation : Message → State → Int × State
  compute_contract_address : Address → Nat → Address
  compute_create2_contract_address : Address → Nat → List Nat → Address

/-- Pop the stack top, raising StackUnderflow on an empty stack
(`vm/stack.py` is not under the provided sources; spec: underflow is
trapped before any state effect). -/
def popOr (evm : Evm) (st : State) (k : Nat → Evm → StepResult) : StepResult :=
  match evm.stack with
  | [] => StepResult.err EvmError.stackUnderflow evm st
  | x :: s => k x { evm with stack := s }

/-- Push onto the frame stack, raising StackOverflow past 1024. -/
def pushOr (evm : Evm) (st : State) (v : Nat) (k : Evm → StepResult) : StepResult :=
  match stackPush evm.stack v with
  | none => StepResult.err EvmError.stackOverflow evm st
  | some s => k { evm with stack := s }

/-- The `evm.pc += 1` epilogue of the CALL/CREATE family (skipped when
the handler raised, as the Python increment is unreachable then). -/
def bumpPC : StepResult → StepResult
  | StepResult.ok evm st => StepResult.ok { evm with pc := evm.pc + 1 } st
  | r => r

/-! ## Child-frame merging (`osaka/vm/__init__.py`) -/

/-- `incorporate_child_on_success`: absorb gas, logs, refund counter,
deletion set and all three access sets of a successful child. -/
def incorporate_child_on_success (evm child_evm : Evm) : Evm :=
  { evm with
    gas_left := evm.gas_left + child_evm.gas_left
    logs := evm.logs ++ child_evm.logs
    refund_counter := evm.refund_counter + child_evm.refund_counter
    accounts_to_delete := setUpdate evm.accounts_to_delete child_evm.accounts_to_delete
    accessed_addresses := setUpdate evm.accessed_addresses child_evm.accessed_addresses
    accessed_storage_keys := setUpdate evm.accessed_storage_keys child_evm.accessed_storage_keys
    warm_code_addresses := setUpdate evm.warm_code_addresses child_evm.warm_code_addresses }

/-- `incorporate_child_on_error`: absorb only the unused gas of a
failed child. -/
def incorporate_child_on_error (evm child_evm : Evm) : Evm :=
  { evm with gas_left := evm.gas_left + child_evm.gas_left }

/-! ## Non-recursive opcode handlers -/

/-- Modelled from the spec (section 4.E.7): STOP halts the frame; the
program counter does not advance and no gas is charged
(`instructions/control_flow.py` is not under the provided sources). -/
def stop (evm : Evm) (st : State) : StepResult :=
  StepResult.ok { evm with running := false } st

/-- Modelled from the spec: PUSH1 charges `GAS_VERY_LOW = 3`, pushes
the immediate byte (zero-padded past the end of code, section 8
boundary note) and advances `pc` by 2 (`instructions/stack.py` is not
under the provided sources). -/
def push1 (evm : Evm) (st : State) : StepResult :=
  match charge_gas evm GAS_VERY_LOW with
  | none => StepResult.err EvmError.outOfGas evm st
  | some evm =>
      let v := evm.code.getD (evm.pc + 1) 0
      pushOr evm st v fun evm =>
        StepResult.ok { evm with pc := evm.pc + 2 } st

/-- `return_` from `osaka/vm/instructions/system.py`: pop offset and
size, charge `GAS_ZERO` plus memory expansion, expand, set `output` to
the memory slice, halt. -/
def return_ (evm : Evm) (st : State) : StepResult :=
  popOr evm st fun memory_start_position evm =>
  popOr evm st fun memory_size evm =>
  let extend_memory := calculate_gas_extend_memory evm.memory
    [(memory_start_position, memory_size)]
  match charge_gas evm (GAS_ZERO + extend_memory.cost) with
  | none => StepResult.err EvmError.outOfGas evm st
  | some evm =>
      let evm := { evm with memory := evm.memory ++ List.replicate extend_memory.expand_by 0 }
      let evm := { evm with
        output := memory_read_bytes evm.memory memory_start_position memory_size }
      StepResult.ok { evm with running := false } st

/-- `revert` from `osaka/vm/instructions/system.py`: pop offset and
size, charge memory expansion, expand, set `output` to the memory
slice, then raise `Revert` (the raise carries the frame as mutated, so
the charged gas and the output slice survive to the catch). -/
def revert (evm : Evm) (st : State) : StepResult :=
  popOr evm st fun memory_start_index evm =>
  popOr evm st fun size evm =>
  let extend_memory := calculate_gas_extend_memory evm.memory [(memory_start_index, size)]
  match charge_gas evm extend_memory.cost with
  | none => StepResult.err EvmError.outOfGas evm st
  | some evm =>
      let evm := { evm with memory := evm.memory ++ List.replicate extend_memory.expand_by 0 }
      let evm := { evm with output := memory_read_bytes evm.memory memory_start_index size }
      StepResult.err EvmError.revertError evm st

/-- `selfdestruct` from `osaka/vm/instructions/system.py` (EIP-6780):
pop the beneficiary, charge 5000 plus the cold-access fee plus 25000
when the beneficiary is not alive and the balance is non-zero; refuse
in a static context; move the whole balance to the beneficiary; only
when the executing account was created in this transaction, zero its
balance and schedule it for deletion; halt without advancing `pc`. -/
def selfdestruct (evm : Evm) (st : State) : StepResult :=
  popOr evm st fun rawBeneficiary evm =>
  let beneficiary := to_address rawBeneficiary
  let (accessFee, evm) :=
    if beneficiary ∈ evm.accessed_addresses then (0, evm)
    else (GAS_COLD_ACCOUNT_ACCESS,
      { evm with accessed_addresses := setAdd evm.accessed_addresses beneficiary })
  let gas_cost := GAS_SELF_DESTRUCT + accessFee +
    (if is_account_alive st beneficiary = false ∧
        (get_account st evm.message.current_target).balance ≠ 0
     then GAS_SELF_DESTRUCT_NEW_ACCOUNT else 0)
  match charge_gas evm gas_cost with
  | none => StepResult.err EvmError.outOfGas evm st
  | some evm =>
      if evm.message.is_static then StepResult.err EvmError.writeInStaticContext evm st
      else
        let originator := evm.message.current_target
        let originator_balance := (get_account st originator).balance
        match move_ether st originator beneficiary originator_balance with
        | none => StepResult.err EvmError.insufficientBalance evm st
        | some st =>
            if originator ∈ st.core.created_accounts then
              StepResult.ok
                { evm with
                  accounts_to_delete := setAdd evm.accounts_to_delete originator
                  running := false }
                (set_account_balance st originator 0)
            else
              StepResult.ok { evm with running := false } st

/-! ## The interpreter and the call/create engine

`execute_code` runs opcode handlers that re-enter `process_message` /
`process_create_message`; the family is mutually recursive and made
total by a fuel argument every member consumes (fuel 0 is `oof`).  The
opcode table (`instructions/__init__.py`, not under the provided
sources) is restricted to STOP, PUSH1 and the system opcodes whose
sources are given; every other byte raises InvalidOpcode. -/

/-- The fresh frame `execute_code` builds from a message
(`prague/vm/interpreter.py`; the `warm_code_addresses` field of the
Osaka frame is initialised from the message per spec section 3). -/
def initEvm (m : Message) : Evm :=
  { pc := 0
    stack := []
    memory := []
    code := m.code
    gas_left := m.gas
    valid_jump_destinations := get_valid_jump_destinations m.code
    logs := []
    refund_counter := 0
    running := true
    message := m
    output := []
    accounts_to_delete := []
    return_data := []
    error := none
    accessed_addresses := m.accessed_addresses
    accessed_storage_keys := m.accessed_storage_keys
    warm_code_addresses := m.warm_code_addresses }

/-- The child `Message` literal of `generic_call`
(`osaka/vm/instructions/system.py` lines 310-329), field for field:
the child runs at `toAddr` with the given caller and value, one level
deeper, static when forced by STATICCALL or inherited from the parent,
with copies of the parent's access sets. -/
def generic_call_child_message (evm : Evm) (gas value : Nat)
    (caller toAddr code_address : Address)
    (should_transfer_value is_staticcall : Bool)
    (call_data code : List Nat) (disable_precompiles : Bool) : Message :=
  { tx_env := evm.message.tx_env
    caller := caller
    target := some toAddr
    gas := gas
    value := value
    data := call_data
    code := code
    current_target := toAddr
    depth := evm.message.depth + 1
    code_address := some code_address
    should_transfer_value := should_transfer_value
    is_static := if is_staticcall then true else evm.message.is_static
    accessed_addresses := evm.accessed_addresses
    accessed_storage_keys := evm.accessed_storage_keys
    disable_precompiles := disable_precompiles
    warm_code_addresses := evm.warm_code_addresses }

/-- The merge epilogue of `generic_call`
(`osaka/vm/instructions/system.py` lines 330-346): absorb the child by
its error flag, set `return_data` to the child output, push the
success flag, and write the output window; a raise out of the child
propagates with the parent frame as it stood. -/
def generic_call_merge (evm : Evm)
    (memory_output_start_position memory_output_size : Nat) :
    PMResult → StepResult
  | PMResult.oof => StepResult.oof
  | PMResult.raised e st => StepResult.err e evm st
  | PMResult.ok child_evm st =>
      let ok := child_evm.error.isNone
      let evm :=
        if ok then
          { incorporate_child_on_success evm child_evm with
            return_data := child_evm.output }
        else
          { incorporate_child_on_error evm child_evm with
            return_data := child_evm.output }
      pushOr evm st (if ok then 1 else 0) fun evm =>
        let actual_output_size := min memory_output_size child_evm.output.length
        let newMemory := memory_write evm.memory memory_output_start_position
          (child_evm.output.take actual_output_size)
        StepResult.ok { evm with memory := newMemory } st

mutual

/-- `generic_create` from `osaka/vm/instructions/system.py`: the core
of CREATE/CREATE2 — init-code size cap, EIP-150 gas forwarding, the
static refusal, the soft balance/nonce/depth failures (which refund the
forwarded gas), the address-collision soft failure (which does not),
and the spawn/merge of the child create frame. -/
def generic_create (E : ExtFuns) :
    Nat → Evm → Nat → Address → Nat → Nat → State → StepResult
  | 0, _, _, _, _, _, _ => StepResult.oof
  | f + 1, evm, endowment, contract_address, memory_start_position, memory_size, st =>
    let call_data := memory_read_bytes evm.memory memory_start_position memory_size
    if call_data.length > MAX_INIT_CODE_SIZE then StepResult.err EvmError.outOfGas evm st
    else
      let create_message_gas := max_message_call_gas evm.gas_left
      let evm := { evm with gas_left := evm.gas_left - create_message_gas }
      if evm.message.is_static then StepResult.err EvmError.writeInStaticContext evm st
      else
        let evm := { evm with return_data := [] }
        let sender := get_account st evm.message.current_target
        if sender.balance < endowment ∨ sender.nonce = 2 ^ 64 - 1 ∨
            evm.message.depth + 1 > STACK_DEPTH_LIMIT then
          let evm := { evm with gas_left := evm.gas_left + create_message_gas }
          pushOr evm st 0 fun evm => StepResult.ok evm st
        else
          let evm := { evm with
            accessed_addresses := setAdd evm.accessed_addresses contract_address }
          if account_has_code_or_nonce st contract_address ||
              account_has_storage st contract_address then
            let st := increment_nonce st evm.message.current_target
            pushOr evm st 0 fun evm => StepResult.ok evm st
          else
            let st := increment_nonce st evm.message.current_target
            let child_message : Message :=
              { tx_env := evm.message.tx_env
                caller := evm.message.current_target
                target := none
                gas := create_message_gas
                value := endowment
                data := []
                code := call_data
                current_target := contract_address
                depth := evm.message.depth + 1
                code_address := none
                should_transfer_value := true
                is_static := false
                accessed_addresses := evm.accessed_addresses
                accessed_storage_keys := evm.accessed_storage_keys
                disable_precompiles := false
                warm_code_addresses := evm.warm_code_addresses }
            match process_create_message E f child_message st with
            | PMResult.oof => StepResult.oof
            | PMResult.raised e st => StepResult.err e evm st
            | PMResult.ok child_evm st =>
                if child_evm.error.isSome then
                  let evm := incorporate_child_on_error evm child_evm
                  let evm := { evm with return_data := child_evm.output }
                  pushOr evm st 0 fun evm => StepResult.ok evm st
                else
                  let evm := incorporate_child_on_success evm child_evm
                  let evm := { evm with return_data := [] }
                  pushOr evm st child_evm.message.current_target fun evm =>
                    StepResult.ok evm st
termination_by structural f _ _ _ _ _ _ => f

/-- `create` from `osaka/vm/instructions/system.py`. -/
def create (E : ExtFuns) : Nat → Evm → State → StepResult
  | 0, _, _ => StepResult.oof
  | f + 1, evm, st =>
    popOr evm st fun endowment evm =>
    popOr evm st fun memory_start_position evm =>
    popOr evm st fun memory_size evm =>
    let extend_memory := calculate_gas_extend_memory evm.memory
      [(memory_start_position, memory_size)]
    let init_code_gas := init_code_cost memory_size
    match charge_gas evm (GAS_CREATE + extend_memory.cost + init_code_gas) with
    | none => StepResult.err EvmError.outOfGas evm st
    | some evm =>
        let evm := { evm with memory := evm.memory ++ List.replicate extend_memory.expand_by 0 }
        let contract_address := E.compute_contract_address evm.message.current_target
          (get_account st evm.message.current_target).nonce
        bumpPC (generic_create E f evm endowment contract_address
          memory_start_position memory_size st)
termination_by structural f _ _ => f

/-- `create2` from `osaka/vm/instructions/system.py`: like CREATE plus
the keccak word cost of the init code and the salt-based address. -/
def create2 (E : ExtFuns) : Nat → Evm → State → StepResult
  | 0, _, _ => StepResult.oof
  | f + 1, evm, st =>
    popOr evm st fun endowment evm =>
    popOr evm st fun memory_start_position evm =>
    popOr evm st fun memory_size evm =>
    popOr evm st fun salt evm =>
    let extend_memory := calculate_gas_extend_memory evm.memory
      [(memory_start_position, memory_size)]
    let call_data_words := ceil32 memory_size / 32
    let init_code_gas := init_code_cost memory_size
    match charge_gas evm
        (GAS_CREATE + GAS_KECCAK256_WORD * call_data_words +
          extend_memory.cost + init_code_gas) with
    | none => StepResult.err EvmError.outOfGas evm st
    | some evm =>
        let evm := { evm with memory := evm.memory ++ List.replicate extend_memory.expand_by 0 }
        let contract_address := E.compute_create2_contract_address
          evm.message.current_target salt
          (memory_read_bytes evm.memory memory_start_position memory_size)
        bumpPC (generic_create E f evm endowment contract_address
          memory_start_position memory_size st)
termination_by structural f _ _ => f

/-- `generic_call` from `osaka/vm/instructions/system.py`: the core of
the CALL family — the depth soft failure, the child message, the
spawn through `process_message`, the success/error merge, and the
write-back of the output window. -/
def generic_call (E : ExtFuns) :
    Nat → Evm → Nat → Nat → Address → Address → Address → Bool → Bool →
      Nat → Nat → Nat → Nat → List Nat → Bool → State → StepResult
  | 0, _, _, _, _, _, _, _, _, _, _, _, _, _, _, _ => StepResult.oof
  | f + 1, evm, gas, value, caller, toAddr, code_address, should_transfer_value, is_staticcall,
      memory_input_start_position, memory_input_size,
      memory_output_start_position, memory_output_size, code, disable_precompiles, st =>
    let evm := { evm with return_data := [] }
    if evm.message.depth + 1 > STACK_DEPTH_LIMIT then
      let evm := { evm with gas_left := evm.gas_left + gas }
      pushOr evm st 0 fun evm => StepResult.ok evm st
    else
      let call_data := memory_read_bytes evm.memory
        memory_input_start_position memory_input_size
      let child_message : Message :=
        generic_call_child_message evm gas value caller toAddr code_address
          should_transfer_value is_staticcall call_data code disable_precompiles
      generic_call_merge evm memory_output_start_position memory_output_size
        (process_message E f child_message st)
termination_by structural f _ _ _ _ _ _ _ _ _ _ _ _ _ _ _ => f

/-- `call` from `osaka/vm/instructions/system.py`. -/
def call (E : ExtFuns) : Nat → Evm → State → StepResult
  | 0, _, _ => StepResult.oof
  | f + 1, evm, st =>
    popOr evm st fun gas evm =>
    popOr evm st fun rawTo evm =>
    popOr evm st fun value evm =>
    popOr evm st fun memory_input_start_position evm =>
    popOr evm st fun memory_input_size evm =>
    popOr evm st fun memory_output_start_position evm =>
    popOr evm st fun memory_output_size evm =>
    let toAddr := to_address rawTo
    let extend_memory := calculate_gas_extend_memory evm.memory
      [(memory_input_start_position, memory_input_size),
       (memory_output_start_position, memory_output_size)]
    let feeAcc := accountAccessFee evm toAddr
    let evm := feeAcc.2
    let feeCode := codeAccessFee evm st toAddr
    let evm := feeCode.2
    let deleg := access_delegation evm st toAddr
    let disable_precompiles := deleg.1
    let code_address := deleg.2.1
    let code := deleg.2.2.1
    let evm := deleg.2.2.2.2
    let access_gas_cost := feeAcc.1 + feeCode.1 + deleg.2.2.2.1
    let create_gas_cost :=
      if value = 0 || is_account_alive st toAddr then 0 else GAS_NEW_ACCOUNT
    let transfer_gas_cost := if value = 0 then 0 else GAS_CALL_VALUE
    match calculate_message_call_gas value gas evm.gas_left extend_memory.cost
        (access_gas_cost + create_gas_cost + transfer_gas_cost) with
    | Except.error _ => StepResult.err EvmError.outOfGas evm st
    | Except.ok message_call_gas =>
    match charge_gas evm (message_call_gas.cost + extend_memory.cost) with
    | none => StepResult.err EvmError.outOfGas evm st
    | some evm =>
    if evm.message.is_static = true ∧ value ≠ 0 then
      StepResult.err EvmError.writeInStaticContext evm st
    else
      let evm := { evm with memory := evm.memory ++ List.replicate extend_memory.expand_by 0 }
      let sender_balance := (get_account st evm.message.current_target).balance
      if sender_balance < value then
        pushOr evm st 0 fun evm =>
          bumpPC (StepResult.ok
            { evm with return_data := []
                       gas_left := evm.gas_left + message_call_gas.sub_call } st)
      else
        bumpPC (generic_call E f evm message_call_gas.sub_call value
          evm.message.current_target toAddr code_address true false
          memory_input_start_position memory_input_size
          memory_output_start_position memory_output_size code disable_precompiles st)
termination_by structural f _ _ => f

/-- `callcode` from `osaka/vm/instructions/system.py`: like CALL but
the child executes the target's code at the caller's own address; the
balance gate is applied exactly as for CALL. -/
def callcode (E : ExtFuns) : Nat → Evm → State → StepResult
  | 0, _, _ => StepResult.oof
  | f + 1, evm, st =>
    popOr evm st fun gas evm =>
    popOr evm st fun rawCodeAddress evm =>
    popOr evm st fun value evm =>
    popOr evm st fun memory_input_start_position evm =>
    popOr evm st fun memory_input_size evm =>
    popOr evm st fun memory_output_start_position evm =>
    popOr evm st fun memory_output_size evm =>
    let toAddr := evm.message.current_target
    let extend_memory := calculate_gas_extend_memory evm.memory
      [(memory_input_start_position, memory_input_size),
       (memory_output_start_position, memory_output_size)]
    let feeAcc := accountAccessFee evm (to_address rawCodeAddress)
    let evm := feeAcc.2
    let feeCode := codeAccessFee evm st (to_address rawCodeAddress)
    let evm := feeCode.2
    let deleg := access_delegation evm st (to_address rawCodeAddress)
    let disable_precompiles := deleg.1
    let code_address := deleg.2.1
    let code := deleg.2.2.1
    let evm := deleg.2.2.2.2
    let access_gas_cost := feeAcc.1 + feeCode.1 + deleg.2.2.2.1
    let transfer_gas_cost := if value = 0 then 0 else GAS_CALL_VALUE
    match calculate_message_call_gas value gas evm.gas_left extend_memory.cost
        (access_gas_cost + transfer_gas_cost) with
    | Except.error _ => StepResult.err EvmError.outOfGas evm st
    | Except.ok message_call_gas =>
    match charge_gas evm (message_call_gas.cost + extend_memory.cost) with
    | none => StepResult.err EvmError.outOfGas evm st
    | some evm =>
      let evm := { evm with memory := evm.memory ++ List.replicate extend_memory.expand_by 0 }
      let sender_balance := (get_account st evm.message.current_target).balance
      if sender_balance < value then
        pushOr evm st 0 fun evm =>
          bumpPC (StepResult.ok
            { evm with return_data := []
                       gas_left := evm.gas_left + message_call_gas.sub_call } st)
      else
        bumpPC (generic_call E f evm message_call_gas.sub_call value
          evm.message.current_target toAddr code_address true false
          memory_input_start_position memory_input_size
          memory_output_start_position memory_output_size code disable_precompiles st)
termination_by structural f _ _ => f

/-- `delegatecall` from `osaka/vm/instructions/system.py`: the child
keeps the parent's caller, self-address and value, and transfers no
value. -/
def delegatecall (E : ExtFuns) : Nat → Evm → State → StepResult
  | 0, _, _ => StepResult.oof
  | f + 1, evm, st =>
    popOr evm st fun gas evm =>
    popOr evm st fun rawCodeAddress evm =>
    popOr evm st fun memory_input_start_position evm =>
    popOr evm st fun memory_input_size evm =>
    popOr evm st fun memory_output_start_position evm =>
    popOr evm st fun memory_output_size evm =>
    let extend_memory := calculate_gas_extend_memory evm.memory
      [(memory_input_start_position, memory_input_size),
       (memory_output_start_position, memory_output_size)]
    let feeAcc := accountAccessFee evm (to_address rawCodeAddress)
    let evm := feeAcc.2
    let feeCode := codeAccessFee evm st (to_address rawCodeAddress)
    let evm := feeCode.2
    let deleg := access_delegation evm st (to_address rawCodeAddress)
    let disable_precompiles := deleg.1
    let code_address := deleg.2.1
    let code := deleg.2.2.1
    let evm := deleg.2.2.2.2
    let access_gas_cost := feeAcc.1 + feeCode.1 + deleg.2.2.2.1
    match calculate_message_call_gas 0 gas evm.gas_left extend_memory.cost
        access_gas_cost with
    | Except.error _ => StepResult.err EvmError.outOfGas evm st
    | Except.ok message_call_gas =>
    match charge_gas evm (message_call_gas.cost + extend_memory.cost) with
    | none => StepResult.err EvmError.outOfGas evm st
    | some evm =>
      let evm := { evm with memory := evm.memory ++ List.replicate extend_memory.expand_by 0 }
      bumpPC (generic_call E f evm message_call_gas.sub_call
        evm.message.value evm.message.caller evm.message.current_target code_address
        false false
        memory_input_start_position memory_input_size
        memory_output_start_position memory_output_size code disable_precompiles st)
termination_by structural f _ _ => f

/-- `staticcall` from `osaka/vm/instructions/system.py`: the child runs
at the popped address with value 0 and the static flag forced. -/
def staticcall (E : ExtFuns) : Nat → Evm → State → StepResult
  | 0, _, _ => StepResult.oof
  | f + 1, evm, st =>
    popOr evm st fun gas evm =>
    popOr evm st fun rawTo evm =>
    popOr evm st fun memory_input_start_position evm =>
    popOr evm st fun memory_input_size evm =>
    popOr evm st fun memory_output_start_position evm =>
    popOr evm st fun memory_output_size evm =>
    let toAddr := to_address rawTo
    let extend_memory := calculate_gas_extend_memory evm.memory
      [(memory_input_start_position, memory_input_size),
       (memory_output_start_position, memory_output_size)]
    let feeAcc := accountAccessFee evm toAddr
    let evm := feeAcc.2
    let feeCode := codeAccessFee evm st toAddr
    let evm := feeCode.2
    let deleg := access_delegation evm st toAddr
    let disable_precompiles := deleg.1
    let code_address := deleg.2.1
    let code := deleg.2.2.1
    let evm := deleg.2.2.2.2
    let access_gas_cost := feeAcc.1 + feeCode.1 + deleg.2.2.2.1
    match calculate_message_call_gas 0 gas evm.gas_left extend_memory.cost
        access_gas_cost with
    | Except.error _ => StepResult.err EvmError.outOfGas evm st
    | Except.ok message_call_gas =>
    match charge_gas evm (message_call_gas.cost + extend_memory.cost) with
    | none => StepResult.err EvmError.outOfGas evm st
    | some evm =>
      let evm := { evm with memory := evm.memory ++ List.replicate extend_memory.expand_by 0 }
      bumpPC (generic_call E f evm message_call_gas.sub_call 0
        evm.message.current_target toAddr code_address
        true true
        memory_input_start_position memory_input_size
        memory_output_start_position memory_output_size code disable_precompiles st)
termination_by structural f _ _ => f

/-- Modelled from the spec (section 4.C): the opcode dispatch,
restricted to the opcodes embedded here; any other byte is undefined
and raises InvalidOpcode when fetched. -/
def dispatchOp (E : ExtFuns) : Nat → Nat → Evm → State → StepResult
  | 0, _, _, _ => StepResult.oof
  | f + 1, b, evm, st =>
    if b = 0x00 then stop evm st
    else if b = 0x60 then push1 evm st
    else if b = 0xF0 then create E f evm st
    else if b = 0xF1 then call E f evm st
    else if b = 0xF2 then callcode E f evm st
    else if b = 0xF3 then return_ evm st
    else if b = 0xF4 then delegatecall E f evm st
    else if b = 0xF5 then create2 E f evm st
    else if b = 0xFA then staticcall E f evm st
    else if b = 0xFD then revert evm st
    else if b = 0xFF then selfdestruct evm st
    else StepResult.err EvmError.invalidOpcode evm st
termination_by structural f _ _ _ => f

/-- The while-loop of `execute_code`: run while `running` and
`pc < len(code)`; the first raise exits the loop carrying the mutated
frame. -/
def interpLoop (E : ExtFuns) : Nat → Evm → State → StepResult
  | 0, _, _ => StepResult.oof
  | f + 1, evm, st =>
    if evm.running = true ∧ evm.pc < evm.code.length then
      match dispatchOp E f (evm.code.getD evm.pc 0) evm st with
      | StepResult.ok evm st => interpLoop E f evm st
      | r => r
    else StepResult.ok evm st
termination_by structural f _ _ => f

/-- The body of `execute_code`'s try-block
(`prague/vm/interpreter.py` lines 291-310): precompile dispatch — with
the early plain return when `disable_precompiles` is set — or the
fetch-decode-execute loop. -/
def execute_body (E : ExtFuns) : Nat → Message → State → StepResult
  | 0, _, _ => StepResult.oof
  | f + 1, m, st =>
    let evm := initEvm m
    if isPrecompileAddress m.code_address then
      if m.disable_precompiles then StepResult.ok evm st
      else
        match E.precompileImpl (m.code_address.getD 0) evm with
        | Except.ok evm => StepResult.ok evm st
        | Except.error (e, evm) => StepResult.err e evm st
    else interpLoop E f evm st
termination_by structural f _ _ => f

/-- `execute_code` from `prague/vm/interpreter.py`: run the body and
catch — an exceptional halt zeroes `gas_left`, clears `output` and
records the error; `Revert` records the error and preserves the frame
as raised. -/
def execute_code (E : ExtFuns) : Nat → Message → State → PMResult
  | 0, _, _ => PMResult.oof
  | f + 1, m, st =>
    match execute_body E f m st with
    | StepResult.oof => PMResult.oof
    | StepResult.ok evm st => PMResult.ok evm st
    | StepResult.err e evm st =>
        if e = EvmError.revertError then
          PMResult.ok { evm with error := some EvmError.revertError } st
        else
          PMResult.ok { evm with gas_left := 0, output := [], error := some e } st
termination_by structural f _ _ => f

/-- `process_message` from `prague/vm/interpreter.py`: depth guard
(raised, not caught here), snapshot, optional value transfer, run the
code, then commit or roll back by the frame's error. -/
def process_message (E : ExtFuns) : Nat → Message → State → PMResult
  | 0, _, _ => PMResult.oof
  | f + 1, m, st =>
    if m.depth > STACK_DEPTH_LIMIT then PMResult.raised EvmError.stackDepthLimit st
    else
      let st := begin_transaction st
      let transferred : Option State :=
        if m.should_transfer_value = true ∧ m.value ≠ 0 then
          move_ether st m.caller m.current_target m.value
        else some st
      match transferred with
      | none => PMResult.raised EvmError.insufficientBalance st
      | some st =>
          match execute_code E f m st with
          | PMResult.oof => PMResult.oof
          | PMResult.raised e st => PMResult.raised e st
          | PMResult.ok evm st =>
              if evm.error.isSome then PMResult.ok evm (rollback_transaction st)
              else PMResult.ok evm (commit_transaction st)
termination_by structural f _ _ => f

/-- `process_create_message` from `prague/vm/interpreter.py`:
snapshot, clear any dead storage, mark the account created, bump its
nonce, run the init frame, then the code-deposit phase: the 0xEF
prefix check (EIP-3541), the 200-per-byte deposit charge, the 24576
size cap (EIP-170); any deposit failure rolls back, zeroes gas, clears
output and records the error (the deposit charge only ever touched
`gas_left`, which the catch overwrites with 0). -/
def process_create_message (E : ExtFuns) : Nat → Message → State → PMResult
  | 0, _, _ => PMResult.oof
  | f + 1, m, st =>
    let st := begin_transaction st
    let st := destroy_storage st m.current_target
    let st := mark_account_created st m.current_target
    let st := increment_nonce st m.current_target
    match process_message E f m st with
    | PMResult.oof => PMResult.oof
    | PMResult.raised e st => PMResult.raised e st
    | PMResult.ok evm st =>
        if evm.error.isSome then PMResult.ok evm (rollback_transaction st)
        else
          let contract_code := evm.output
          let contract_code_gas := contract_code.length * GAS_CODE_DEPOSIT
          let attempt : Except EvmError Evm :=
            if contract_code.length > 0 ∧ contract_code.getD 0 0 = 0xEF then
              Except.error EvmError.invalidContractByte
            else
              match charge_gas evm contract_code_gas with
              | none => Except.error EvmError.outOfGas
              | some evm =>
                  if contract_code.length > MAX_CODE_SIZE then
                    Except.error EvmError.outOfGas
                  else Except.ok evm
          match attempt with
          | Except.error e =>
              PMResult.ok { evm with gas_left := 0, output := [], error := some e }
                (rollback_transaction st)
          | Except.ok evm =>
              PMResult.ok evm
                (commit_transaction (set_code st m.current_target contract_code))
termination_by structural f _ _ => f

end

/-! ## Top-level entry -/

/-- The epilogue of `process_message_call`: on an errored top frame the
output drops the frame's logs and deletions and ignores its refund
counter; otherwise they are all surfaced.  `rc` is the refund
contribution accumulated before the frame ran (EIP-7702 processing). -/
def mcFinish (rc : Int) : PMResult → MCResult
  | PMResult.oof => MCResult.oof
  | PMResult.raised e st => MCResult.raised e st
  | PMResult.ok evm st =>
      if evm.error.isSome then
        MCResult.ok
          { gas_left := evm.gas_left
            refund_counter := rc
            logs := []
            accounts_to_delete := []
            error := evm.error
            return_data := evm.output } st
      else
        MCResult.ok
          { gas_left := evm.gas_left
            refund_counter := rc + evm.refund_counter
            logs := evm.logs
            accounts_to_delete := evm.accounts_to_delete
            error := none
            return_data := evm.output } st

/-- `process_message_call` from `prague/vm/interpreter.py`: on the
create path, refuse on an address collision (code, nonce or storage at
the target) with zero gas; on the call path, apply EIP-7702
authorizations and resolve a delegation designator in the message code
(disabling precompiles) before running the frame. -/
def process_message_call (E : ExtFuns) : Nat → Message → State → MCResult
  | 0, _, _ => MCResult.oof
  | f + 1, m, st =>
    match m.target with
    | none =>
        if account_has_code_or_nonce st m.current_target ||
            account_has_storage st m.current_target then
          MCResult.ok
            { gas_left := 0
              refund_counter := 0
              logs := []
              accounts_to_delete := []
              error := some EvmError.addressCollision
              return_data := [] } st
        else mcFinish 0 (process_create_message E f m st)
    | some _ =>
        let applied :=
          if m.tx_env.authorizations ≠ [] then E.set_delegation m st else (0, st)
        let rc := applied.1
        let st := applied.2
        let m :=
          match get_delegated_code_address m.code with
          | some delegated =>
              { m with
                disable_precompiles := true
                accessed_addresses := setAdd m.accessed_addresses delegated
                code := (get_account st delegated).code
                code_address := some delegated }
          | none => m
        mcFinish rc (process_message E f m st)

/-! ## The spec's reading of the precompile dispatch (for C1) -/

/-- Modelled from the spec: section 4.D steps 1-2 read literally —
dispatch to the precompile only when `code_address` is a precompile
address AND `disable_precompiles` is false; in every other case
(including a disabled precompile address) fall through to the
fetch-decode-execute loop over `message.code`. -/
def execute_body_spec (E : ExtFuns) : Nat → Message → State → StepResult
  | 0, _, _ => StepResult.oof
  | f + 1, m, st =>
    let evm := initEvm m
    if isPrecompileAddress m.code_address ∧ m.disable_precompiles = false then
      match E.precompileImpl (m.code_address.getD 0) evm with
      | Except.ok evm => StepResult.ok evm st
      | Except.error (e, evm) => StepResult.err e evm st
    else interpLoop E f evm st

/-- Modelled from the spec: `execute_code` with the spec's reading of
the precompile dispatch (section 4.D), identical catch clauses. -/
def execute_code_spec (E : ExtFuns) : Nat → Message → State → PMResult
  | 0, _, _ => PMResult.oof
  | f + 1, m, st =>
    match execute_body_spec E f m st with
    | StepResult.oof => PMResult.oof
    | StepResult.ok evm st => PMResult.ok evm st
    | StepResult.err e evm st =>
        if e = EvmError.revertError then
          PMResult.ok { evm with error := some EvmError.revertError } st
        else
          PMResult.ok { evm with gas_left := 0, output := [], error := some e } st

/-! ## Concrete fixtures for witnesses and counterexamples -/

/-- External collaborators instantiated trivially for concrete runs:
precompile bodies are out of the embedded scope (the runs below never
dispatch one). -/
def stubExt : ExtFuns :=
  { precompileImpl := fun _ evm => Except.ok evm
    set_delegation := fun _ st => (0, st)
    compute_contract_address := fun _ _ => 0xC0
    compute_create2_contract_address := fun _ _ _ => 0xC2 }

/-- An empty world state. -/
def emptySt : State := ⟨⟨[], []⟩, []⟩

/-- A baseline message for concrete runs. -/
def baseMsg : Message :=
  { tx_env := ⟨[]⟩
    caller := 0xAA
    target := some 0xBB
    current_target := 0xBB
    gas := 100
    value := 0
    data := []
    code_address := none
    code := []
    depth := 0
    should_transfer_value := true
    is_static := false
    accessed_addresses := []
    accessed_storage_keys := []
    disable_precompiles := false
    warm_code_addresses := [] }

/-- A baseline frame for concrete runs of single opcode handlers. -/
def baseEvm : Evm := initEvm baseMsg

/-- A message whose `code_address` is the precompile address 0x01,
with `disable_precompiles` set and the one-byte code STOP. -/
def c1Msg : Message :=
  { baseMsg with code := [0x00], code_address := some 1, disable_precompiles := true }

/-- A message whose one code byte 0x0C is an undefined opcode. -/
def c2Msg : Message := { baseMsg with code := [0x0C] }

/-- The frame `execute_code` returns for `c2Msg`: the exceptional-halt
catch zeroed the gas and recorded InvalidOpcode — with `running` as the
raise left it. -/
def c2ErrFrame : Evm :=
  { initEvm c2Msg with
    gas_left := 0
    output := []
    error := some EvmError.invalidOpcode }

/-- The collision state for the C10 witness: the derived address 0xCC
already carries nonce 1. -/
def c10St : State := ⟨⟨[(0xCC, ⟨1, 0, [], []⟩)], []⟩, []⟩

def c5Msg : Message := { baseMsg with code := [0x60, 0x02, 0x60, 0x00, 0xF3], gas := 10 }

def c5St : State :=
  increment_nonce
    (mark_account_created
      (destroy_storage (begin_transaction emptySt) c5Msg.current_target)
      c5Msg.current_target)
    c5Msg.current_target

def c5Frame : Evm :=
  { initEvm c5Msg with
    pc := 4
    memory := List.replicate 32 0
    gas_left := 1
    running := false
    output := [0x00, 0x00] }

def c6Evm : Evm := { baseEvm with stack := [0, 0xCC, 5, 0, 0, 0, 0], gas_left := 50000 }

def c7St : State := mark_account_created (set_account_balance emptySt 0xBB 7) 0xBB

def c7Evm : Evm := { baseEvm with stack := [0xDD], gas_left := 40000 }

def c7EvmD : Evm :=
  { baseEvm with
    stack := []
    gas_left := 7400
    accessed_addresses := setAdd [] 0xDD }

def c8Evm : Evm := { baseEvm with stack := [0, 0xCC, 0, 0, 0, 0], gas_left := 50000 }

def c8EvmD : Evm :=
  { baseEvm with
    stack := []
    gas_left := 47400
    accessed_addresses := setAdd [] 0xCC
    warm_code_addresses := setAdd [] 0xCC }

def c9CreateMsg : Message := { baseMsg with target := none }

def c9St : State := increment_nonce emptySt 0xBB

/-! ## Inversion helpers -/

theorem popOr_ok {evm : Evm} {st : State} {k : Nat → Evm → StepResult} {evm' : Evm}
    {st' : State} (h : popOr evm st k = StepResult.ok evm' st') :
    ∃ x s, evm.stack = x :: s ∧ k x { evm with stack := s } = StepResult.ok evm' st' := by
  unfold popOr at h
  cases hst : evm.stack with
  | nil => rw [hst] at h; exact StepResult.noConfusion h
  | cons x s => rw [hst] at h; exact ⟨x, s, rfl, h⟩

theorem pushOr_ok {evm : Evm} {st : State} {v : Nat} {k : Evm → StepResult} {evm' : Evm}
    {st' : State} (h : pushOr evm st v k = StepResult.ok evm' st') :
    ∃ s, stackPush evm.stack v = some s ∧
      k { evm with stack := s } = StepResult.ok evm' st' := by
  unfold pushOr at h
  cases hs : stackPush evm.stack v with
  | none => rw [hs] at h; exact StepResult.noConfusion h
  | some s => rw [hs] at h; exact ⟨s, rfl, h⟩

theorem charge_gas_some {evm : Evm} {n : Nat} {evm1 : Evm}
    (h : charge_gas evm n = some evm1) :
    evm1 = { evm with gas_left := evm.gas_left - n } ∧ n ≤ evm.gas_left := by
  unfold charge_gas at h
  split at h
  · exact Option.noConfusion h
  · exact ⟨(Option.some.inj h).symm, Nat.le_of_not_lt (by assumption)⟩

theorem bumpPC_ok {r : StepResult} {evm' : Evm} {st' : State}
    (h : bumpPC r = StepResult.ok evm' st') :
    ∃ evm₀, r = StepResult.ok evm₀ st' ∧ evm' = { evm₀ with pc := evm₀.pc + 1 } := by
  cases r with
  | ok e s =>
      unfold bumpPC at h
      cases h
      exact ⟨e, rfl, rfl⟩
  | err e evm st => exact StepResult.noConfusion h
  | oof => exact StepResult.noConfusion h

theorem accountAccessFee_error (evm : Evm) (a : Address) :
    (accountAccessFee evm a).2.error = evm.error := by
  unfold accountAccessFee; split <;> rfl

theorem codeAccessFee_error (evm : Evm) (st : State) (a : Address) :
    (codeAccessFee evm st a).2.error = evm.error := by
  unfold codeAccessFee; split <;> rfl

theorem access_delegation_error (evm : Evm) (st : State) (a : Address) :
    (access_delegation evm st a).2.2.2.2.error = evm.error := by
  dsimp only [access_delegation]
  split
  · rfl
  · split <;> rfl

/-! ## The error slot is written only by the catch clauses

Every opcode handler of the embedded table threads the parent frame
through record updates that never touch `error`; hence a frame the
interpreter loop returns normally carries the error slot it started
with, and `execute_code` assigns the slot exclusively in its two catch
branches. -/

theorem stop_ok_error {evm : Evm} {st : State} {evm' : Evm} {st' : State}
    (h : stop evm st = StepResult.ok evm' st') : evm'.error = evm.error := by
  unfold stop at h; cases h; rfl

theorem push1_ok_error {evm : Evm} {st : State} {evm' : Evm} {st' : State}
    (h : push1 evm st = StepResult.ok evm' st') : evm'.error = evm.error := by
  unfold push1 at h
  revert h
  cases hc : charge_gas evm GAS_VERY_LOW with
  | none => intro h; exact StepResult.noConfusion h
  | some evm1 =>
      intro h
      try dsimp only at h
      obtain ⟨s, -, h⟩ := pushOr_ok h
      try dsimp only at h
      cases h
      rw [(charge_gas_some hc).1]

theorem return_ok_error {evm : Evm} {st : State} {evm' : Evm} {st' : State}
    (h : return_ evm st = StepResult.ok evm' st') : evm'.error = evm.error := by
  unfold return_ at h
  obtain ⟨x1, s1, -, h⟩ := popOr_ok h
  try dsimp only at h
  obtain ⟨x2, s2, -, h⟩ := popOr_ok h
  try dsimp only at h
  revert h
  cases hc : charge_gas _ _ with
  | none => intro h; exact StepResult.noConfusion h
  | some evm1 =>
      intro h
      try dsimp only at h
      cases h
      rw [(charge_gas_some hc).1]

theorem revert_ok_error {evm : Evm} {st : State} {evm' : Evm} {st' : State}
    (h : revert evm st = StepResult.ok evm' st') : evm'.error = evm.error := by
  unfold revert at h
  obtain ⟨x1, s1, -, h⟩ := popOr_ok h
  try dsimp only at h
  obtain ⟨x2, s2, -, h⟩ := popOr_ok h
  try dsimp only at h
  revert h
  cases hc : charge_gas _ _ with
  | none => intro h; exact StepResult.noConfusion h
  | some evm1 => intro h; try dsimp only at h; exact StepResult.noConfusion h

theorem selfdestruct_ok_error {evm : Evm} {st : State} {evm' : Evm} {st' : State}
    (h : selfdestruct evm st = StepResult.ok evm' st') : evm'.error = evm.error := by
  unfold selfdestruct at h
  obtain ⟨x1, s1, -, h⟩ := popOr_ok h
  try dsimp only at h
  by_cases hb : to_address x1 ∈ evm.accessed_addresses <;>
    simp only [hb, if_true, if_false, ite_true, ite_false] at h <;>
    try dsimp only at h
  all_goals
    revert h
    cases hc : charge_gas _ _ with
    | none => intro h; exact StepResult.noConfusion h
    | some evm1 =>
        intro h
        try dsimp only at h
        split at h
        · exact StepResult.noConfusion h
        · revert h
          cases hm : move_ether st _ _ _ with
          | none => intro h; exact StepResult.noConfusion h
          | some st2 =>
              intro h
              try dsimp only at h
              split at h <;> (cases h; rw [(charge_gas_some hc).1])

theorem generic_call_merge_ok_error {evm : Evm} {o1 o2 : Nat} {r : PMResult}
    {evm' : Evm} {st' : State}
    (h : generic_call_merge evm o1 o2 r = StepResult.ok evm' st') :
    evm'.error = evm.error := by
  cases r with
  | oof => exact StepResult.noConfusion h
  | raised e st => exact StepResult.noConfusion h
  | ok child st =>
      unfold generic_call_merge at h
      try dsimp only at h
      split at h <;> (obtain ⟨s, -, h⟩ := pushOr_ok h; try dsimp only at h; cases h; rfl)

theorem generic_call_ok_error {E : ExtFuns} {f : Nat} {evm : Evm}
    {a1 a2 : Nat} {a3 a4 a5 : Address} {b1 b2 : Bool} {c1 c2 c3 c4 : Nat}
    {cd : List Nat} {dp : Bool} {st : State} {evm' : Evm} {st' : State}
    (h : generic_call E f evm a1 a2 a3 a4 a5 b1 b2 c1 c2 c3 c4 cd dp st =
      StepResult.ok evm' st') : evm'.error = evm.error := by
  cases f with
  | zero => exact StepResult.noConfusion h
  | succ f =>
      unfold generic_call at h
      try dsimp only at h
      split at h
      · obtain ⟨s, -, h⟩ := pushOr_ok h
        try dsimp only at h
        cases h; rfl
      · exact Eq.trans (generic_call_merge_ok_error h) rfl

theorem generic_create_ok_error {E : ExtFuns} {f : Nat} {evm : Evm}
    {endowment : Nat} {ca : Address} {msp msz : Nat} {st : State} {evm' : Evm}
    {st' : State}
    (h : generic_create E f evm endowment ca msp msz st = StepResult.ok evm' st') :
    evm'.error = evm.error := by
  cases f with
  | zero => exact StepResult.noConfusion h
  | succ f =>
      unfold generic_create at h
      try dsimp only at h
      split at h
      · exact StepResult.noConfusion h
      · split at h
        · exact StepResult.noConfusion h
        · split at h
          · obtain ⟨s, -, h⟩ := pushOr_ok h
            try dsimp only at h
            cases h; rfl
          · split at h
            · obtain ⟨s, -, h⟩ := pushOr_ok h
              try dsimp only at h
              cases h; rfl
            · revert h
              cases hp : process_create_message E f _ _ with
              | oof => intro h; exact StepResult.noConfusion h
              | raised e st2 => intro h; exact StepResult.noConfusion h
              | ok child st2 =>
                  intro h
                  try dsimp only at h
                  split at h <;>
                    (obtain ⟨s, -, h⟩ := pushOr_ok h; try dsimp only at h; cases h; rfl)

theorem bumpPC_okE {r : StepResult} {base : Evm}
    (hr : ∀ e s2, r = StepResult.ok e s2 → e.error = base.error)
    {evm' : Evm} {st' : State} (h : bumpPC r = StepResult.ok evm' st') :
    evm'.error = base.error := by
  cases r with
  | ok e s => unfold bumpPC at h; cases h; exact hr e st' rfl
  | err e evm st => exact StepResult.noConfusion h
  | oof => exact StepResult.noConfusion h

theorem create_ok_error {E : ExtFuns} {f : Nat} {evm : Evm} {st : State} {evm' : Evm}
    {st' : State} (h : create E f evm st = StepResult.ok evm' st') :
    evm'.error = evm.error := by
  cases f with
  | zero => exact StepResult.noConfusion h
  | succ f =>
      unfold create at h
      obtain ⟨x1, s1, -, h⟩ := popOr_ok h
      try dsimp only at h
      obtain ⟨x2, s2, -, h⟩ := popOr_ok h
      try dsimp only at h
      obtain ⟨x3, s3, -, h⟩ := popOr_ok h
      try dsimp only at h
      revert h
      cases hc : charge_gas _ _ with
      | none => intro h; exact StepResult.noConfusion h
      | some evm1 =>
          intro h
          try dsimp only at h
          have h4 : evm1.error = evm.error := by rw [(charge_gas_some hc).1]
          refine Eq.trans ?_ h4
          refine bumpPC_okE (fun e s2 he => ?_) h
          have hx := generic_create_ok_error he
          exact hx.trans rfl

theorem create2_ok_error {E : ExtFuns} {f : Nat} {evm : Evm} {st : State} {evm' : Evm}
    {st' : State} (h : create2 E f evm st = StepResult.ok evm' st') :
    evm'.error = evm.error := by
  cases f with
  | zero => exact StepResult.noConfusion h
  | succ f =>
      unfold create2 at h
      obtain ⟨x1, s1, -, h⟩ := popOr_ok h
      try dsimp only at h
      obtain ⟨x2, s2, -, h⟩ := popOr_ok h
      try dsimp only at h
      obtain ⟨x3, s3, -, h⟩ := popOr_ok h
      try dsimp only at h
      obtain ⟨x4, s4, -, h⟩ := popOr_ok h
      try dsimp only at h
      revert h
      cases hc : charge_gas _ _ with
      | none => intro h; exact StepResult.noConfusion h
      | some evm1 =>
          intro h
          try dsimp only at h
          have h4 : evm1.error = evm.error := by rw [(charge_gas_some hc).1]
          refine Eq.trans ?_ h4
          refine bumpPC_okE (fun e s2 he => ?_) h
          have hx := generic_create_ok_error he
          exact hx.trans rfl

theorem call_ok_error {E : ExtFuns} {f : Nat} {evm : Evm} {st : State} {evm' : Evm}
    {st' : State} (h : call E f evm st = StepResult.ok evm' st') :
    evm'.error = evm.error := by
  cases f with
  | zero => exact StepResult.noConfusion h
  | succ f =>
      unfold call at h
      obtain ⟨x1, s1, -, h⟩ := popOr_ok h
      obtain ⟨x2, s2, -, h⟩ := popOr_ok h
      obtain ⟨x3, s3, -, h⟩ := popOr_ok h
      obtain ⟨x4, s4, -, h⟩ := popOr_ok h
      obtain ⟨x5, s5, -, h⟩ := popOr_ok h
      obtain ⟨x6, s6, -, h⟩ := popOr_ok h
      obtain ⟨x7, s7, -, h⟩ := popOr_ok h
      try dsimp only at h
      revert h
      cases hmcg : calculate_message_call_gas x3 x1 _ _ _ with
      | error u => intro h; exact StepResult.noConfusion h
      | ok mcg =>
          intro h
          try dsimp only at h
          revert h
          cases hc : charge_gas _ (mcg.cost + _) with
          | none => intro h; exact StepResult.noConfusion h
          | some evm4 =>
              intro h
              try dsimp only at h
              have h4 : evm4.error = evm.error := by
                rw [(charge_gas_some hc).1]
                simp only [access_delegation_error, codeAccessFee_error,
                  accountAccessFee_error]
              split at h
              · exact StepResult.noConfusion h
              · split at h
                · obtain ⟨s8, -, h⟩ := pushOr_ok h
                  try dsimp only at h
                  refine Eq.trans ?_ h4
                  exact bumpPC_okE (fun e s2 he => by cases he; rfl) h
                · refine Eq.trans ?_ h4
                  refine bumpPC_okE (fun e s2 he => ?_) h
                  have hx := generic_call_ok_error he
                  exact hx.trans rfl

theorem callcode_ok_error {E : ExtFuns} {f : Nat} {evm : Evm} {st : State} {evm' : Evm}
    {st' : State} (h : callcode E f evm st = StepResult.ok evm' st') :
    evm'.error = evm.error := by
  cases f with
  | zero => exact StepResult.noConfusion h
  | succ f =>
      unfold callcode at h
      obtain ⟨x1, s1, -, h⟩ := popOr_ok h
      obtain ⟨x2, s2, -, h⟩ := popOr_ok h
      obtain ⟨x3, s3, -, h⟩ := popOr_ok h
      obtain ⟨x4, s4, -, h⟩ := popOr_ok h
      obtain ⟨x5, s5, -, h⟩ := popOr_ok h
      obtain ⟨x6, s6, -, h⟩ := popOr_ok h
      obtain ⟨x7, s7, -, h⟩ := popOr_ok h
      try dsimp only at h
      revert h
      cases hmcg : calculate_message_call_gas x3 x1 _ _ _ with
      | error u => intro h; exact StepResult.noConfusion h
      | ok mcg =>
          intro h
          try dsimp only at h
          revert h
          cases hc : charge_gas _ (mcg.cost + _) with
          | none => intro h; exact StepResult.noConfusion h
          | some evm4 =>
              intro h
              try dsimp only at h
              have h4 : evm4.error = evm.error := by
                rw [(charge_gas_some hc).1]
                simp only [access_delegation_error, codeAccessFee_error,
                  accountAccessFee_error]
              split at h
              · obtain ⟨s8, -, h⟩ := pushOr_ok h
                try dsimp only at h
                refine Eq.trans ?_ h4
                exact bumpPC_okE (fun e s2 he => by cases he; rfl) h
              · refine Eq.trans ?_ h4
                refine bumpPC_okE (fun e s2 he => ?_) h
                have hx := generic_call_ok_error he
                exact hx.trans rfl

theorem delegatecall_ok_error {E : ExtFuns} {f : Nat} {evm : Evm} {st : State}
    {evm' : Evm} {st' : State} (h : delegatecall E f evm st = StepResult.ok evm' st') :
    evm'.error = evm.error := by
  cases f with
  | zero => exact StepResult.noConfusion h
  | succ f =>
      unfold delegatecall at h
      obtain ⟨x1, s1, -, h⟩ := popOr_ok h
      obtain ⟨x2, s2, -, h⟩ := popOr_ok h
      obtain ⟨x3, s3, -, h⟩ := popOr_ok h
      obtain ⟨x4, s4, -, h⟩ := popOr_ok h
      obtain ⟨x5, s5, -, h⟩ := popOr_ok h
      obtain ⟨x6, s6, -, h⟩ := popOr_ok h
      try dsimp only at h
      revert h
      cases hmcg : calculate_message_call_gas 0 x1 _ _ _ with
      | error u => intro h; exact StepResult.noConfusion h
      | ok mcg =>
          intro h
          try dsimp only at h
          revert h
          cases hc : charge_gas _ (mcg.cost + _) with
          | none => intro h; exact StepResult.noConfusion h
          | some evm4 =>
              intro h
              try dsimp only at h
              have h4 : evm4.error = evm.error := by
                rw [(charge_gas_some hc).1]
                simp only [access_delegation_error, codeAccessFee_error,
                  accountAccessFee_error]
              refine Eq.trans ?_ h4
              refine bumpPC_okE (fun e s2 he => ?_) h
              have hx := generic_call_ok_error he
              exact hx.trans rfl

theorem staticcall_ok_error {E : ExtFuns} {f : Nat} {evm : Evm} {st : State}
    {evm' : Evm} {st' : State} (h : staticcall E f evm st = StepResult.ok evm' st') :
    evm'.error = evm.error := by
  cases f with
  | zero => exact StepResult.noConfusion h
  | succ f =>
      unfold staticcall at h
      obtain ⟨x1, s1, -, h⟩ := popOr_ok h
      obtain ⟨x2, s2, -, h⟩ := popOr_ok h
      obtain ⟨x3, s3, -, h⟩ := popOr_ok h
      obtain ⟨x4, s4, -, h⟩ := popOr_ok h
      obtain ⟨x5, s5, -, h⟩ := popOr_ok h
      obtain ⟨x6, s6, -, h⟩ := popOr_ok h
      try dsimp only at h
      revert h
      cases hmcg : calculate_message_call_gas 0 x1 _ _ _ with
      | error u => intro h; exact StepResult.noConfusion h
      | ok mcg =>
          intro h
          try dsimp only at h
          revert h
          cases hc : charge_gas _ (mcg.cost + _) with
          | none => intro h; exact StepResult.noConfusion h
          | some evm4 =>
              intro h
              try dsimp only at h
              have h4 : evm4.error = evm.error := by
                rw [(charge_gas_some hc).1]
                simp only [access_delegation_error, codeAccessFee_error,
                  accountAccessFee_error]
              refine Eq.trans ?_ h4
              refine bumpPC_okE (fun e s2 he => ?_) h
              have hx := generic_call_ok_error he
              exact hx.trans rfl

set_option maxHeartbeats 1600000 in
theorem dispatchOp_ok_error {E : ExtFuns} {f b : Nat} {evm : Evm} {st : State}
    {evm' : Evm} {st' : State} (h : dispatchOp E f b evm st = StepResult.ok evm' st') :
    evm'.error = evm.error := by
  cases f with
  | zero => exact StepResult.noConfusion h
  | succ f =>
      unfold dispatchOp at h
      repeat' split at h
      all_goals
        first
          | exact stop_ok_error h
          | exact push1_ok_error h
          | exact create_ok_error h
          | exact call_ok_error h
          | exact callcode_ok_error h
          | exact return_ok_error h
          | exact delegatecall_ok_error h
          | exact create2_ok_error h
          | exact staticcall_ok_error h
          | exact revert_ok_error h
          | exact selfdestruct_ok_error h
          | exact StepResult.noConfusion h

theorem interpLoop_ok_error {E : ExtFuns} :
    ∀ {f : Nat} {evm : Evm} {st : State} {evm' : Evm} {st' : State},
      interpLoop E f evm st = StepResult.ok evm' st' → evm'.error = evm.error := by
  intro f
  induction f with
  | zero => intro evm st evm' st' h; exact StepResult.noConfusion h
  | succ f ih =>
      intro evm st evm' st' h
      unfold interpLoop at h
      split at h
      · revert h
        cases hd : dispatchOp E f (evm.code.getD evm.pc 0) evm st with
        | ok evm2 st2 => intro h; exact (ih h).trans (dispatchOp_ok_error hd)
        | err e evm2 st2 => intro h; exact StepResult.noConfusion h
        | oof => intro h; exact StepResult.noConfusion h
      · cases h; rfl

/-- A frame that leaves the try-block of `execute_code` normally still
has an empty error slot, provided the external precompile bodies
observe the exception discipline (they report failure by raising, never
by writing the slot). -/
theorem execute_body_ok_error_none {E : ExtFuns} {f : Nat} {m : Message} {st : State}
    {evm' : Evm} {st' : State}
    (hE : ∀ a evm evm1, E.precompileImpl a evm = Except.ok evm1 → evm1.error = evm.error)
    (h : execute_body E f m st = StepResult.ok evm' st') : evm'.error = none := by
  cases f with
  | zero => exact StepResult.noConfusion h
  | succ f =>
      unfold execute_body at h
      try dsimp only at h
      split at h
      · split at h
        · cases h; rfl
        · revert h
          cases hp : E.precompileImpl (m.code_address.getD 0) (initEvm m) with
          | ok evm1 => intro h; cases h; exact hE _ _ _ hp
          | error pe => intro h; cases pe; exact StepResult.noConfusion h
      · exact interpLoop_ok_error h

/-! ## Claims -/

/-- C3: `incorporate_child_on_success` adds the child's `gas_left`,
`logs`, `refund_counter`, `accounts_to_delete`, `accessed_addresses`,
`accessed_storage_keys` and `warm_code_addresses` into the parent,
while `incorporate_child_on_error` adds only the child's `gas_left`,
leaving the parent's logs, refund counter, deletion set and all three
access sets unchanged. -/
theorem claim3_child_merge (p c : Evm) :
    (incorporate_child_on_success p c).gas_left = p.gas_left + c.gas_left ∧
    (incorporate_child_on_success p c).logs = p.logs ++ c.logs ∧
    (incorporate_child_on_success p c).refund_counter =
      p.refund_counter + c.refund_counter ∧
    (∀ x, x ∈ (incorporate_child_on_success p c).accounts_to_delete ↔
      x ∈ p.accounts_to_delete ∨ x ∈ c.accounts_to_delete) ∧
    (∀ x, x ∈ (incorporate_child_on_success p c).accessed_addresses ↔
      x ∈ p.accessed_addresses ∨ x ∈ c.accessed_addresses) ∧
    (∀ k, k ∈ (incorporate_child_on_success p c).accessed_storage_keys ↔
      k ∈ p.accessed_storage_keys ∨ k ∈ c.accessed_storage_keys) ∧
    (∀ x, x ∈ (incorporate_child_on_success p c).warm_code_addresses ↔
      x ∈ p.warm_code_addresses ∨ x ∈ c.warm_code_addresses) ∧
    incorporate_child_on_error p c = { p with gas_left := p.gas_left + c.gas_left } :=
  ⟨rfl, rfl, rfl,
    fun _ => mem_setUpdate _ _ _,
    fun _ => mem_setUpdate _ _ _,
    fun _ => mem_setUpdate _ _ _,
    fun _ => mem_setUpdate _ _ _, rfl⟩

/-- C1 counterexample: at `c1Msg`, `execute_code` returns the freshly
initialised frame untouched — `running` still true, no byte of the
STOP-only code executed — while the spec's reading
(`execute_code_spec`, which falls through to the fetch-decode-execute
loop when precompiles are disabled) executes the STOP and halts the
frame; the two disagree. -/
theorem claim1_counterexample :
    execute_code stubExt 5 c1Msg emptySt = PMResult.ok (initEvm c1Msg) emptySt ∧
    execute_code_spec stubExt 5 c1Msg emptySt =
      PMResult.ok { initEvm c1Msg with running := false } emptySt ∧
    execute_code stubExt 5 c1Msg emptySt ≠ execute_code_spec stubExt 5 c1Msg emptySt := by
  refine ⟨rfl, rfl, fun h => ?_⟩
  have hb : true = false :=
    congrArg (fun r => match r with | PMResult.ok e _ => e.running | _ => true) h
  exact Bool.noConfusion hb

/-- C1 amended: when `message.code_address` names a precompile address
and `disable_precompiles` is true, `execute_code` returns the freshly
initialised frame immediately — `valid_jump_destinations` is still
precomputed into the frame, but neither the precompile nor any byte of
`message.code` is executed; `gas_left` stays `message.gas`, `running`
stays true and no error is set. -/
theorem claim1_disabled_precompile_returns_fresh_frame
    (E : ExtFuns) (f : Nat) (m : Message) (st : State)
    (hpre : isPrecompileAddress m.code_address = true)
    (hdis : m.disable_precompiles = true) :
    execute_code E (f + 2) m st = PMResult.ok (initEvm m) st := by
  simp only [execute_code, execute_body, hpre, hdis, if_true]

/-- C1 witness: the amended theorem at `c1Msg`. -/
theorem claim1_witness :
    isPrecompileAddress c1Msg.code_address = true ∧
    c1Msg.disable_precompiles = true ∧
    execute_code stubExt 2 c1Msg emptySt = PMResult.ok (initEvm c1Msg) emptySt :=
  ⟨rfl, rfl, claim1_disabled_precompile_returns_fresh_frame stubExt 0 c1Msg emptySt rfl rfl⟩

/-- C2 counterexample: the frame `execute_code` returns for the
undefined byte 0x0C has its error set, yet `running` is still true —
the catch clauses never reset the flag, so the claim's
`error ≠ none ⇒ running = false` fails on the code. -/
theorem claim2_counterexample :
    execute_code stubExt 4 c2Msg emptySt = PMResult.ok c2ErrFrame emptySt ∧
    c2ErrFrame.error = some EvmError.invalidOpcode ∧
    c2ErrFrame.running = true :=
  ⟨rfl, rfl, rfl⟩

/-- C2 amended: for every frame `execute_code` returns with its error
slot set — precompile bodies observing the exception discipline — an
exceptional halt left `gas_left = 0` and an empty output, while a
`Revert` left the frame exactly as the REVERT raise produced it, only
with the error recorded; and the REVERT handler raises with `output`
set to the charged memory slice and `gas_left` reduced only by the
memory-expansion cost.  (The claim's further `running = false` is
dropped: the catch clauses do not touch the flag.) -/
theorem claim2_error_frame_shape :
    (∀ (E : ExtFuns) (f : Nat) (m : Message) (st : State) (evm' : Evm) (st' : State)
        (e : EvmError),
      (∀ a evm evm1, E.precompileImpl a evm = Except.ok evm1 → evm1.error = evm.error) →
      execute_code E (f + 1) m st = PMResult.ok evm' st' →
      evm'.error = some e →
      (e.isExceptionalHalt = true → evm'.gas_left = 0 ∧ evm'.output = []) ∧
      (e = EvmError.revertError → ∃ evm₀,
        execute_body E f m st = StepResult.err EvmError.revertError evm₀ st' ∧
        evm' = { evm₀ with error := some EvmError.revertError })) ∧
    (∀ (evm : Evm) (st : State) (o s : Nat) (rest : List Nat),
      evm.stack = o :: s :: rest →
      (calculate_gas_extend_memory evm.memory [(o, s)]).cost ≤ evm.gas_left →
      revert evm st = StepResult.err EvmError.revertError
        { evm with
          stack := rest
          gas_left := evm.gas_left - (calculate_gas_extend_memory evm.memory [(o, s)]).cost
          memory := evm.memory ++
            List.replicate (calculate_gas_extend_memory evm.memory [(o, s)]).expand_by 0
          output := memory_read_bytes
            (evm.memory ++
              List.replicate (calculate_gas_extend_memory evm.memory [(o, s)]).expand_by 0)
            o s } st) := by
  constructor
  · intro E f m st evm' st' e hE hrun herr
    unfold execute_code at hrun
    revert hrun
    cases hb : execute_body E f m st with
    | oof => intro hrun; exact PMResult.noConfusion hrun
    | ok e2 s2 =>
        intro hrun
        dsimp only at hrun
        cases hrun
        rw [execute_body_ok_error_none hE hb] at herr
        exact Option.noConfusion herr
    | err e2 evm2 st2 =>
        intro hrun
        dsimp only at hrun
        by_cases hrev : e2 = EvmError.revertError
        · subst hrev
          rw [if_pos rfl] at hrun
          cases hrun
          cases Option.some.inj herr
          constructor
          · intro hex; exact absurd hex (by decide)
          · intro _; exact ⟨evm2, rfl, rfl⟩
        · rw [if_neg hrev] at hrun
          cases hrun
          cases Option.some.inj herr
          constructor
          · intro _; exact ⟨rfl, rfl⟩
          · intro hco; exact absurd hco hrev
  · intro evm st o s rest hstack hcost
    unfold revert popOr
    rw [hstack]
    dsimp only
    have hch : charge_gas { evm with stack := rest }
        (calculate_gas_extend_memory evm.memory [(o, s)]).cost =
        some { evm with
          stack := rest
          gas_left := evm.gas_left -
            (calculate_gas_extend_memory evm.memory [(o, s)]).cost } := by
      unfold charge_gas
      rw [if_neg (Nat.not_lt.mpr hcost)]
    rw [hch]

/-- C2 witness: the amended theorem applied to the InvalidOpcode run of
`c2Msg` (exceptional-halt part) and to a concrete REVERT raise
(revert-slice part). -/
theorem claim2_witness :
    (execute_code stubExt 4 c2Msg emptySt = PMResult.ok c2ErrFrame emptySt ∧
      c2ErrFrame.error = some EvmError.invalidOpcode ∧
      c2ErrFrame.gas_left = 0 ∧ c2ErrFrame.output = []) ∧
    revert { baseEvm with stack := [0, 0] } emptySt =
      StepResult.err EvmError.revertError { baseEvm with stack := [], output := [] }
        emptySt := by
  constructor
  · refine ⟨rfl, rfl, ?_⟩
    exact (claim2_error_frame_shape.1 stubExt 3 c2Msg emptySt c2ErrFrame emptySt
      EvmError.invalidOpcode (fun a evm evm1 hp => by cases hp; rfl) rfl rfl).1 rfl
  · have h := claim2_error_frame_shape.2 { baseEvm with stack := [0, 0] } emptySt 0 0 []
      rfl (by decide)
    exact h

/-- C4: `generic_create` after reading the init code: an init code
longer than 49152 bytes raises OutOfGas; a static frame raises
WriteInStaticContext (with the forwarded create gas already deducted);
and when the sender's balance is below the endowment, or the sender's
nonce is 2^64 - 1, or depth + 1 exceeds 1024, it pushes 0, restores
the forwarded create gas `gas_left - gas_left/64` (net gas unchanged)
and spawns no child (frame and state otherwise untouched). -/
theorem claim4_generic_create_guards (E : ExtFuns) (f : Nat) (evm : Evm)
    (endowment : Nat) (contract_address : Address) (msp msz : Nat) (st : State) :
    ((memory_read_bytes evm.memory msp msz).length > MAX_INIT_CODE_SIZE →
      generic_create E (f + 1) evm endowment contract_address msp msz st =
        StepResult.err EvmError.outOfGas evm st) ∧
    ((memory_read_bytes evm.memory msp msz).length ≤ MAX_INIT_CODE_SIZE →
      evm.message.is_static = true →
      generic_create E (f + 1) evm endowment contract_address msp msz st =
        StepResult.err EvmError.writeInStaticContext
          { evm with gas_left := evm.gas_left - max_message_call_gas evm.gas_left } st) ∧
    ((memory_read_bytes evm.memory msp msz).length ≤ MAX_INIT_CODE_SIZE →
      evm.message.is_static = false →
      ((get_account st evm.message.current_target).balance < endowment ∨
        (get_account st evm.message.current_target).nonce = 2 ^ 64 - 1 ∨
        evm.message.depth + 1 > STACK_DEPTH_LIMIT) →
      evm.stack.length < STACK_DEPTH_LIMIT →
      generic_create E (f + 1) evm endowment contract_address msp msz st =
        StepResult.ok { evm with return_data := [], stack := 0 :: evm.stack } st) := by
  refine ⟨?_, ?_, ?_⟩
  · intro hlen
    unfold generic_create
    try dsimp only
    rw [if_pos hlen]
  · intro hlen hstatic
    unfold generic_create
    try dsimp only
    rw [if_neg (Nat.not_lt.mpr hlen), if_pos hstatic]
  · intro hlen hstatic hsoft hstk
    unfold generic_create pushOr stackPush
    try dsimp only
    rw [if_neg (Nat.not_lt.mpr hlen), if_neg (by simp [hstatic])]
    try dsimp only
    rw [if_pos hsoft]
    try dsimp only
    rw [if_pos hstk]
    try dsimp only
    have hg : evm.gas_left - max_message_call_gas evm.gas_left +
        max_message_call_gas evm.gas_left = evm.gas_left :=
      Nat.sub_add_cancel (Nat.sub_le _ _)
    rw [hg]

/-- C4 witness: the soft balance failure at a concrete frame — the
empty init code passes the size check, the frame is not static, the
empty sender account cannot pay endowment 5, and the refusal pushes 0
with the gas restored and the state untouched. -/
theorem claim4_witness :
    (memory_read_bytes baseEvm.memory 0 0).length ≤ MAX_INIT_CODE_SIZE ∧
    baseEvm.message.is_static = false ∧
    (get_account emptySt baseEvm.message.current_target).balance < 5 ∧
    baseEvm.stack.length < STACK_DEPTH_LIMIT ∧
    generic_create stubExt 1 baseEvm 5 0xCC 0 0 emptySt =
      StepResult.ok { baseEvm with return_data := [], stack := [0] } emptySt := by
  refine ⟨by decide, rfl, by decide, by decide, ?_⟩
  exact (claim4_generic_create_guards stubExt 0 baseEvm 5 0xCC 0 0 emptySt).2.2
    (by decide) rfl (Or.inl (by decide)) (by decide)

/-- C10: the address-collision soft failure of `generic_create` — the
balance, nonce and depth checks passed but the derived address has code,
a non-zero nonce or storage: the sender's nonce is incremented, 0 is
pushed, no child is spawned (the state changes only by that nonce
increment), and the forwarded create gas `gas_left - gas_left/64`,
already deducted, is NOT restored. -/
theorem claim10_create_collision_keeps_gas_deducted (E : ExtFuns) (f : Nat)
    (evm : Evm) (endowment : Nat) (contract_address : Address) (msp msz : Nat)
    (st : State)
    (hlen : (memory_read_bytes evm.memory msp msz).length ≤ MAX_INIT_CODE_SIZE)
    (hstatic : evm.message.is_static = false)
    (hbal : ¬ (get_account st evm.message.current_target).balance < endowment)
    (hnonce : (get_account st evm.message.current_target).nonce ≠ 2 ^ 64 - 1)
    (hdepth : ¬ evm.message.depth + 1 > STACK_DEPTH_LIMIT)
    (hstk : evm.stack.length < STACK_DEPTH_LIMIT)
    (hcol : (account_has_code_or_nonce st contract_address ||
      account_has_storage st contract_address) = true) :
    generic_create E (f + 1) evm endowment contract_address msp msz st =
      StepResult.ok
        { evm with
          gas_left := evm.gas_left - max_message_call_gas evm.gas_left
          return_data := []
          stack := 0 :: evm.stack
          accessed_addresses := setAdd evm.accessed_addresses contract_address }
        (increment_nonce st evm.message.current_target) := by
  unfold generic_create pushOr stackPush
  try dsimp only
  rw [if_neg (Nat.not_lt.mpr hlen), if_neg (by simp [hstatic])]
  try dsimp only
  rw [if_neg (by
    rintro (h | h | h)
    · exact hbal h
    · exact hnonce h
    · exact hdepth h)]
  try dsimp only
  rw [if_pos hcol]
  try dsimp only
  rw [if_pos hstk]

/-- C10 witness: the collision theorem at a concrete frame and state. -/
theorem claim10_witness :
    (account_has_code_or_nonce c10St 0xCC || account_has_storage c10St 0xCC) = true ∧
    generic_create stubExt 1 baseEvm 0 0xCC 0 0 c10St =
      StepResult.ok
        { baseEvm with
          gas_left := baseEvm.gas_left - max_message_call_gas baseEvm.gas_left
          return_data := []
          stack := 0 :: baseEvm.stack
          accessed_addresses := setAdd baseEvm.accessed_addresses 0xCC }
        (increment_nonce c10St baseEvm.message.current_target) := by
  refine ⟨by decide, ?_⟩
  exact claim10_create_collision_keeps_gas_deducted stubExt 0 baseEvm 0 0xCC 0 0 c10St
    (by decide) rfl (by decide) (by decide) (by decide) (by decide) (by decide)

/-- C5: the code-deposit phase of `process_create_message`, given the
init frame finished without error: a non-empty output starting with
byte 0xEF raises InvalidContractPrefix before any deposit gas is
charged (the error is InvalidContractPrefix regardless of the frame's
remaining gas); otherwise 200 gas per output byte is charged, raising
OutOfGas when unaffordable, and OutOfGas is raised when the output
exceeds 24576 bytes; each of these failures rolls the snapshot back,
zeroes `gas_left`, clears `output` and records the error; otherwise the
code is stored at `current_target` and the snapshot committed. -/
theorem claim5_code_deposit (E : ExtFuns) (f : Nat) (m : Message) (st : State)
    (evm : Evm) (st' : State)
    (hInner : process_message E f m
        (increment_nonce
          (mark_account_created
            (destroy_storage (begin_transaction st) m.current_target)
            m.current_target)
          m.current_target) = PMResult.ok evm st')
    (hok : evm.error = none) :
    ((evm.output.length > 0 ∧ evm.output.getD 0 0 = 0xEF) →
      process_create_message E (f + 1) m st =
        PMResult.ok
          { evm with
            gas_left := 0
            output := []
            error := some EvmError.invalidContractByte }
          (rollback_transaction st')) ∧
    (¬(evm.output.length > 0 ∧ evm.output.getD 0 0 = 0xEF) →
      evm.gas_left < evm.output.length * GAS_CODE_DEPOSIT →
      process_create_message E (f + 1) m st =
        PMResult.ok
          { evm with
            gas_left := 0
            output := []
            error := some EvmError.outOfGas }
          (rollback_transaction st')) ∧
    (¬(evm.output.length > 0 ∧ evm.output.getD 0 0 = 0xEF) →
      evm.output.length * GAS_CODE_DEPOSIT ≤ evm.gas_left →
      evm.output.length > MAX_CODE_SIZE →
      process_create_message E (f + 1) m st =
        PMResult.ok
          { evm with
            gas_left := 0
            output := []
            error := some EvmError.outOfGas }
          (rollback_transaction st')) ∧
    (¬(evm.output.length > 0 ∧ evm.output.getD 0 0 = 0xEF) →
      evm.output.length * GAS_CODE_DEPOSIT ≤ evm.gas_left →
      ¬ evm.output.length > MAX_CODE_SIZE →
      process_create_message E (f + 1) m st =
        PMResult.ok
          { evm with gas_left := evm.gas_left - evm.output.length * GAS_CODE_DEPOSIT }
          (commit_transaction (set_code st' m.current_target evm.output))) := by
  refine ⟨?_, ?_, ?_, ?_⟩
  · intro hEF
    unfold process_create_message
    try dsimp only
    rw [hInner]
    try dsimp only
    rw [hok]
    try dsimp only
    rw [if_pos hEF]
    try rfl
  · intro hEF hgas
    unfold process_create_message charge_gas
    try dsimp only
    rw [hInner]
    try dsimp only
    rw [hok]
    try dsimp only
    rw [if_neg hEF]
    try dsimp only
    rw [if_pos hgas]
    try rfl
  · intro hEF hgas hbig
    unfold process_create_message charge_gas
    try dsimp only
    rw [hInner]
    try dsimp only
    rw [hok]
    try dsimp only
    rw [if_neg hEF]
    try dsimp only
    rw [if_neg (Nat.not_lt.mpr hgas)]
    try dsimp only
    rw [if_pos hbig]
    try rfl
  · intro hEF hgas hbig
    unfold process_create_message charge_gas
    try dsimp only
    rw [hInner]
    try dsimp only
    rw [hok]
    try dsimp only
    rw [if_neg hEF]
    try dsimp only
    rw [if_neg (Nat.not_lt.mpr hgas)]
    try dsimp only
    rw [if_neg hbig]
    try rfl


set_option maxHeartbeats 4000000 in
/-- C5 witness: a two-byte RETURN output with one unit of gas left fails the
code-deposit charge (400 > 1) and the create rolls back. -/
theorem claim5_witness :
    process_create_message stubExt 10 c5Msg emptySt =
      PMResult.ok
        { c5Frame with
          gas_left := 0
          output := []
          error := some EvmError.outOfGas }
        (rollback_transaction c5St) := by
  have h := claim5_code_deposit stubExt 9 c5Msg emptySt c5Frame c5St rfl rfl
  exact h.2.1 (by decide) (by decide)



/-- C6: for both CALL and CALLCODE, once the operands are popped, the
access fees taken, the message-call gas computed and charged, and (for
CALL) the static gate passed, a sender balance strictly below the value
operand makes the opcode push 0, clear `return_data`, add the sub-call
gas back to `gas_left` and advance `pc` — with the state untouched and
no child frame spawned (the conclusion holds for every fuel, including
fuel 0 for the child engine, which a spawn would exhaust);  CALLCODE
applies the gate exactly as CALL does. -/
theorem claim6_call_callcode_balance_gate (E : ExtFuns) (f : Nat) :
    (∀ (evm0 : Evm) (st : State) (gas rawTo value i1 i2 o1 o2 : Nat) (rest : List Nat)
        (feeA feeC feeD : Nat) (evmA evmB evmC evmD : Evm) (dis : Bool) (ca : Address)
        (code : List Nat) (mcg : MessageCallGas),
      evm0.stack = gas :: rawTo :: value :: i1 :: i2 :: o1 :: o2 :: rest →
      accountAccessFee { evm0 with stack := rest } (to_address rawTo) = (feeA, evmA) →
      codeAccessFee evmA st (to_address rawTo) = (feeC, evmB) →
      access_delegation evmB st (to_address rawTo) = (dis, ca, code, feeD, evmC) →
      calculate_message_call_gas value gas evmC.gas_left
          (calculate_gas_extend_memory evm0.memory [(i1, i2), (o1, o2)]).cost
          (feeA + feeC + feeD +
            (if value = 0 || is_account_alive st (to_address rawTo) then 0
             else GAS_NEW_ACCOUNT) +
            (if value = 0 then 0 else GAS_CALL_VALUE)) = Except.ok mcg →
      charge_gas evmC
          (mcg.cost + (calculate_gas_extend_memory evm0.memory [(i1, i2), (o1, o2)]).cost) =
        some evmD →
      ¬(evmD.message.is_static = true ∧ value ≠ 0) →
      (get_account st evmD.message.current_target).balance < value →
      evmD.stack.length < STACK_DEPTH_LIMIT →
      call E (f + 1) evm0 st =
        StepResult.ok
          { evmD with
            memory := evmD.memory ++
              List.replicate
                (calculate_gas_extend_memory evm0.memory [(i1, i2), (o1, o2)]).expand_by 0
            stack := 0 :: evmD.stack
            return_data := []
            gas_left := evmD.gas_left + mcg.sub_call
            pc := evmD.pc + 1 } st) ∧
    (∀ (evm0 : Evm) (st : State) (gas rawCode value i1 i2 o1 o2 : Nat) (rest : List Nat)
        (feeA feeC feeD : Nat) (evmA evmB evmC evmD : Evm) (dis : Bool) (ca : Address)
        (code : List Nat) (mcg : MessageCallGas),
      evm0.stack = gas :: rawCode :: value :: i1 :: i2 :: o1 :: o2 :: rest →
      accountAccessFee { evm0 with stack := rest } (to_address rawCode) = (feeA, evmA) →
      codeAccessFee evmA st (to_address rawCode) = (feeC, evmB) →
      access_delegation evmB st (to_address rawCode) = (dis, ca, code, feeD, evmC) →
      calculate_message_call_gas value gas evmC.gas_left
          (calculate_gas_extend_memory evm0.memory [(i1, i2), (o1, o2)]).cost
          (feeA + feeC + feeD +
            (if value = 0 then 0 else GAS_CALL_VALUE)) = Except.ok mcg →
      charge_gas evmC
          (mcg.cost + (calculate_gas_extend_memory evm0.memory [(i1, i2), (o1, o2)]).cost) =
        some evmD →
      (get_account st evmD.message.current_target).balance < value →
      evmD.stack.length < STACK_DEPTH_LIMIT →
      callcode E (f + 1) evm0 st =
        StepResult.ok
          { evmD with
            memory := evmD.memory ++
              List.replicate
                (calculate_gas_extend_memory evm0.memory [(i1, i2), (o1, o2)]).expand_by 0
            stack := 0 :: evmD.stack
            return_data := []
            gas_left := evmD.gas_left + mcg.sub_call
            pc := evmD.pc + 1 } st) := by
  constructor
  · intro evm0 st gas rawTo value i1 i2 o1 o2 rest feeA feeC feeD evmA evmB evmC evmD
      dis ca code mcg hstk hA hB hD hmcg hch hstatic hbal hlen
    have hpush : stackPush evmD.stack 0 = some (0 :: evmD.stack) := by
      unfold stackPush; rw [if_pos hlen]
    unfold call popOr
    rw [hstk]
    try dsimp only
    rw [hA]
    try dsimp only
    rw [hB]
    try dsimp only
    rw [hD]
    try dsimp only
    rw [hmcg]
    try dsimp only
    rw [hch]
    try dsimp only
    rw [if_neg hstatic]
    try dsimp only
    rw [if_pos hbal]
    unfold pushOr
    try dsimp only
    rw [hpush]
    try dsimp only
    unfold bumpPC
    try rfl
  · intro evm0 st gas rawCode value i1 i2 o1 o2 rest feeA feeC feeD evmA evmB evmC evmD
      dis ca code mcg hstk hA hB hD hmcg hch hbal hlen
    have hpush : stackPush evmD.stack 0 = some (0 :: evmD.stack) := by
      unfold stackPush; rw [if_pos hlen]
    unfold callcode popOr
    rw [hstk]
    try dsimp only
    rw [hA]
    try dsimp only
    rw [hB]
    try dsimp only
    rw [hD]
    try dsimp only
    rw [hmcg]
    try dsimp only
    rw [hch]
    try dsimp only
    rw [if_pos hbal]
    unfold pushOr
    try dsimp only
    rw [hpush]
    try dsimp only
    unfold bumpPC
    try rfl

/-- C6 witness: with 50000 gas and an empty state (the executing
account 0xBB has balance 0 < value 5), both CALL and CALLCODE take the
access and transfer fees, then hit the balance gate: push 0 and hand
the sub-call gas (the 2300 stipend) back. -/
theorem claim6_witness :
    call stubExt 1 c6Evm emptySt =
      StepResult.ok
        { c6Evm with
          stack := [0]
          gas_left := 15700
          pc := 1
          accessed_addresses := setAdd [] 0xCC
          warm_code_addresses := setAdd [] 0xCC }
        emptySt ∧
    callcode stubExt 1 c6Evm emptySt =
      StepResult.ok
        { c6Evm with
          stack := [0]
          gas_left := 40700
          pc := 1
          accessed_addresses := setAdd [] 0xCC
          warm_code_addresses := setAdd [] 0xCC }
        emptySt := by
  constructor
  · exact (claim6_call_callcode_balance_gate stubExt 0).1 c6Evm emptySt
      0 0xCC 5 0 0 0 0 [] _ _ _ _ _ _ _ _ _ _ ⟨36600, 2300⟩
      rfl rfl rfl rfl rfl rfl (by decide) (by decide) (by decide)
  · exact (claim6_call_callcode_balance_gate stubExt 0).2 c6Evm emptySt
      0 0xCC 5 0 0 0 0 [] _ _ _ _ _ _ _ _ _ _ ⟨11600, 2300⟩
      rfl rfl rfl rfl rfl rfl (by decide) (by decide)


/-- Moving an account's full balance can never fail the balance check. -/
theorem move_ether_full (st : State) (s r : Address) :
    (move_ether st s r (get_account st s).balance).isSome := by
  unfold move_ether
  try dsimp only
  rw [if_neg (Nat.lt_irrefl _)]
  rfl

/-- C7: a non-static SELFDESTRUCT that passes the gas charge moves the
executing account's full balance to the popped beneficiary; then the
originator's balance is zeroed and the originator joins
`accounts_to_delete` exactly when it is in the state's
`created_accounts`; either way the frame halts with `running := false`
and `pc` untouched. -/
theorem claim7_selfdestruct_semantics (evm0 : Evm) (st : State) (rawB : Nat)
    (rest : List Nat) (feeB : Nat) (evm2 evmD : Evm)
    (hstk : evm0.stack = rawB :: rest)
    (hfee :
      (if to_address rawB ∈ evm0.accessed_addresses then
         ((0 : Nat), { evm0 with stack := rest })
       else
         (GAS_COLD_ACCOUNT_ACCESS,
           { evm0 with
             stack := rest
             accessed_addresses := setAdd evm0.accessed_addresses (to_address rawB) })) =
        (feeB, evm2))
    (hch : charge_gas evm2
        (GAS_SELF_DESTRUCT + feeB +
          (if is_account_alive st (to_address rawB) = false ∧
              (get_account st evm2.message.current_target).balance ≠ 0
           then GAS_SELF_DESTRUCT_NEW_ACCOUNT else 0)) = some evmD)
    (hstatic : evmD.message.is_static = false) :
    ∃ stMoved,
      move_ether st evmD.message.current_target (to_address rawB)
          (get_account st evmD.message.current_target).balance = some stMoved ∧
      selfdestruct evm0 st =
        (if evmD.message.current_target ∈ stMoved.core.created_accounts then
           StepResult.ok
             { evmD with
               accounts_to_delete :=
                 setAdd evmD.accounts_to_delete evmD.message.current_target
               running := false }
             (set_account_balance stMoved evmD.message.current_target 0)
         else StepResult.ok { evmD with running := false } stMoved) := by
  cases hmv : move_ether st evmD.message.current_target (to_address rawB)
      (get_account st evmD.message.current_target).balance with
  | none =>
      exfalso
      have h := move_ether_full st evmD.message.current_target (to_address rawB)
      rw [hmv] at h
      simp at h
  | some stM =>
      refine ⟨stM, rfl, ?_⟩
      unfold selfdestruct popOr
      rw [hstk]
      try dsimp only
      rw [hfee]
      try dsimp only
      rw [hch]
      try dsimp only
      rw [if_neg (by simp [hstatic])]
      try dsimp only
      rw [hmv]
      try dsimp only
      try rfl

/-- C7 witness: account 0xBB holds 7 wei and was created in this
transaction; SELFDESTRUCT to the cold dead beneficiary 0xDD charges
5000 + 2600 + 25000, moves the 7 wei, zeroes 0xBB, marks it for
deletion and halts the frame. -/
theorem claim7_witness :
    ∃ stMoved,
      move_ether c7St c7EvmD.message.current_target (to_address 0xDD)
          (get_account c7St c7EvmD.message.current_target).balance = some stMoved ∧
      selfdestruct c7Evm c7St =
        (if c7EvmD.message.current_target ∈ stMoved.core.created_accounts then
           StepResult.ok
             { c7EvmD with
               accounts_to_delete :=
                 setAdd c7EvmD.accounts_to_delete c7EvmD.message.current_target
               running := false }
             (set_account_balance stMoved c7EvmD.message.current_target 0)
         else StepResult.ok { c7EvmD with running := false } stMoved) := by
  exact claim7_selfdestruct_semantics c7Evm c7St 0xDD [] GAS_COLD_ACCOUNT_ACCESS _ _
    rfl rfl rfl rfl


/-- The warm/cold account-access block never touches the frame message. -/
theorem accountAccessFee_message (evm : Evm) (a : Address) :
    (accountAccessFee evm a).2.message = evm.message := by
  unfold accountAccessFee; split <;> rfl

/-- The per-frame code-access block never touches the frame message. -/
theorem codeAccessFee_message (evm : Evm) (st : State) (a : Address) :
    (codeAccessFee evm st a).2.message = evm.message := by
  unfold codeAccessFee; split <;> rfl

/-- Delegation resolution never touches the frame message. -/
theorem access_delegation_message (evm : Evm) (st : State) (a : Address) :
    (access_delegation evm st a).2.2.2.2.message = evm.message := by
  dsimp only [access_delegation]
  split
  · rfl
  · split <;> rfl

/-- C8: DELEGATECALL reduces to `generic_call` with the parent frame's
own caller, self-address and value and `should_transfer_value = false`;
STATICCALL reduces to `generic_call` at the popped address with value
0, `should_transfer_value = true` and the static flag forced; and the
child `Message` that `generic_call` builds carries exactly the caller,
target, value, transfer flag and (forced or inherited) static flag it
is handed.  In both reductions the charged frame's message is the
parent message untouched. -/
theorem claim8_delegatecall_staticcall_child (E : ExtFuns) (f : Nat) :
    (∀ (evm0 : Evm) (st : State) (gas rawCode i1 i2 o1 o2 : Nat) (rest : List Nat)
        (feeA feeC feeD : Nat) (evmA evmB evmC evmD : Evm) (dis : Bool) (ca : Address)
        (code : List Nat) (mcg : MessageCallGas),
      evm0.stack = gas :: rawCode :: i1 :: i2 :: o1 :: o2 :: rest →
      accountAccessFee { evm0 with stack := rest } (to_address rawCode) = (feeA, evmA) →
      codeAccessFee evmA st (to_address rawCode) = (feeC, evmB) →
      access_delegation evmB st (to_address rawCode) = (dis, ca, code, feeD, evmC) →
      calculate_message_call_gas 0 gas evmC.gas_left
          (calculate_gas_extend_memory evm0.memory [(i1, i2), (o1, o2)]).cost
          (feeA + feeC + feeD) = Except.ok mcg →
      charge_gas evmC
          (mcg.cost + (calculate_gas_extend_memory evm0.memory [(i1, i2), (o1, o2)]).cost) =
        some evmD →
      evmD.message = evm0.message ∧
      delegatecall E (f + 1) evm0 st =
        bumpPC (generic_call E f
          { evmD with
            memory := evmD.memory ++
              List.replicate
                (calculate_gas_extend_memory evm0.memory [(i1, i2), (o1, o2)]).expand_by 0 }
          mcg.sub_call evmD.message.value evmD.message.caller
          evmD.message.current_target ca false false
          i1 i2 o1 o2 code dis st)) ∧
    (∀ (evm0 : Evm) (st : State) (gas rawTo i1 i2 o1 o2 : Nat) (rest : List Nat)
        (feeA feeC feeD : Nat) (evmA evmB evmC evmD : Evm) (dis : Bool) (ca : Address)
        (code : List Nat) (mcg : MessageCallGas),
      evm0.stack = gas :: rawTo :: i1 :: i2 :: o1 :: o2 :: rest →
      accountAccessFee { evm0 with stack := rest } (to_address rawTo) = (feeA, evmA) →
      codeAccessFee evmA st (to_address rawTo) = (feeC, evmB) →
      access_delegation evmB st (to_address rawTo) = (dis, ca, code, feeD, evmC) →
      calculate_message_call_gas 0 gas evmC.gas_left
          (calculate_gas_extend_memory evm0.memory [(i1, i2), (o1, o2)]).cost
          (feeA + feeC + feeD) = Except.ok mcg →
      charge_gas evmC
          (mcg.cost + (calculate_gas_extend_memory evm0.memory [(i1, i2), (o1, o2)]).cost) =
        some evmD →
      evmD.message = evm0.message ∧
      staticcall E (f + 1) evm0 st =
        bumpPC (generic_call E f
          { evmD with
            memory := evmD.memory ++
              List.replicate
                (calculate_gas_extend_memory evm0.memory [(i1, i2), (o1, o2)]).expand_by 0 }
          mcg.sub_call 0 evmD.message.current_target (to_address rawTo) ca
          true true
          i1 i2 o1 o2 code dis st)) ∧
    (∀ (evm : Evm) (g v : Nat) (c t ca2 : Address) (stv istc : Bool)
        (cd cod : List Nat) (dp : Bool),
      (generic_call_child_message evm g v c t ca2 stv istc cd cod dp).caller = c ∧
      (generic_call_child_message evm g v c t ca2 stv istc cd cod dp).current_target = t ∧
      (generic_call_child_message evm g v c t ca2 stv istc cd cod dp).value = v ∧
      (generic_call_child_message evm g v c t ca2 stv istc cd cod dp).should_transfer_value =
        stv ∧
      (generic_call_child_message evm g v c t ca2 stv istc cd cod dp).is_static =
        (if istc then true else evm.message.is_static)) := by
  refine ⟨?_, ?_, ?_⟩
  · intro evm0 st gas rawCode i1 i2 o1 o2 rest feeA feeC feeD evmA evmB evmC evmD
      dis ca code mcg hstk hA hB hD hmcg hch
    have hMA : evmA.message = evm0.message := by
      have h2 := congrArg (fun p => p.2.message) hA
      dsimp only at h2
      rw [← h2, accountAccessFee_message]
    have hMB : evmB.message = evm0.message := by
      have h2 := congrArg (fun p => p.2.message) hB
      dsimp only at h2
      rw [← h2, codeAccessFee_message, hMA]
    have hMC : evmC.message = evm0.message := by
      have h2 := congrArg (fun p => p.2.2.2.2.message) hD
      dsimp only at h2
      rw [← h2, access_delegation_message, hMB]
    have hMD : evmD.message = evm0.message := by
      rw [(charge_gas_some hch).1, hMC]
    refine ⟨hMD, ?_⟩
    unfold delegatecall popOr
    rw [hstk]
    try dsimp only
    rw [hA]
    try dsimp only
    rw [hB]
    try dsimp only
    rw [hD]
    try dsimp only
    rw [hmcg]
    try dsimp only
    rw [hch]
    try dsimp only
    try rfl
  · intro evm0 st gas rawTo i1 i2 o1 o2 rest feeA feeC feeD evmA evmB evmC evmD
      dis ca code mcg hstk hA hB hD hmcg hch
    have hMA : evmA.message = evm0.message := by
      have h2 := congrArg (fun p => p.2.message) hA
      dsimp only at h2
      rw [← h2, accountAccessFee_message]
    have hMB : evmB.message = evm0.message := by
      have h2 := congrArg (fun p => p.2.message) hB
      dsimp only at h2
      rw [← h2, codeAccessFee_message, hMA]
    have hMC : evmC.message = evm0.message := by
      have h2 := congrArg (fun p => p.2.2.2.2.message) hD
      dsimp only at h2
      rw [← h2, access_delegation_message, hMB]
    have hMD : evmD.message = evm0.message := by
      rw [(charge_gas_some hch).1, hMC]
    refine ⟨hMD, ?_⟩
    unfold staticcall popOr
    rw [hstk]
    try dsimp only
    rw [hA]
    try dsimp only
    rw [hB]
    try dsimp only
    rw [hD]
    try dsimp only
    rw [hmcg]
    try dsimp only
    rw [hch]
    try dsimp only
    try rfl
  · intro evm g v c t ca2 stv istc cd cod dp
    exact ⟨rfl, rfl, rfl, rfl, rfl⟩

/-- C8 witness: with 50000 gas and the cold empty target 0xCC, both
DELEGATECALL and STATICCALL charge the 2600 access fee and hand the
charged frame to `generic_call` with the claimed caller, target, value
and flags. -/
theorem claim8_witness :
    (c8EvmD.message = c8Evm.message ∧
     delegatecall stubExt 1 c8Evm emptySt =
       bumpPC (generic_call stubExt 0
         { c8EvmD with
           memory := c8EvmD.memory ++
             List.replicate
               (calculate_gas_extend_memory c8Evm.memory [(0, 0), (0, 0)]).expand_by 0 }
         (MessageCallGas.mk 2600 0).sub_call c8EvmD.message.value c8EvmD.message.caller
         c8EvmD.message.current_target 0xCC false false
         0 0 0 0 [] false emptySt)) ∧
    (c8EvmD.message = c8Evm.message ∧
     staticcall stubExt 1 c8Evm emptySt =
       bumpPC (generic_call stubExt 0
         { c8EvmD with
           memory := c8EvmD.memory ++
             List.replicate
               (calculate_gas_extend_memory c8Evm.memory [(0, 0), (0, 0)]).expand_by 0 }
         (MessageCallGas.mk 2600 0).sub_call 0 c8EvmD.message.current_target
         (to_address 0xCC) 0xCC true true
         0 0 0 0 [] false emptySt)) := by
  constructor
  · exact (claim8_delegatecall_staticcall_child stubExt 0).1 c8Evm emptySt
      0 0xCC 0 0 0 0 [] _ _ _ _ _ _ c8EvmD _ _ _ ⟨2600, 0⟩
      rfl rfl rfl rfl rfl rfl
  · exact (claim8_delegatecall_staticcall_child stubExt 0).2.1 c8Evm emptySt
      0 0xCC 0 0 0 0 [] _ _ _ _ _ _ c8EvmD _ _ _ ⟨2600, 0⟩
      rfl rfl rfl rfl rfl rfl


/-- C9: on the create path, an address collision (code, nonce or
storage at the target) makes `process_message_call` return an
AddressCollision output with zero gas, no logs, no deletions and empty
return data; and whenever the top-level frame comes back with its
error set, the output drops the frame's logs and deletion set and its
refund counter, returning only the pre-frame (EIP-7702) refund
contribution — shown both for the `mcFinish` epilogue in general and
for a full non-delegated call-path run of `process_message_call`. -/
theorem claim9_toplevel_output (E : ExtFuns) (f : Nat) :
    (∀ (m : Message) (st : State),
      m.target = none →
      (account_has_code_or_nonce st m.current_target ||
        account_has_storage st m.current_target) = true →
      process_message_call E (f + 1) m st =
        MCResult.ok
          { gas_left := 0
            refund_counter := 0
            logs := []
            accounts_to_delete := []
            error := some EvmError.addressCollision
            return_data := [] } st) ∧
    (∀ (rc : Int) (evm : Evm) (st2 : State),
      evm.error.isSome = true →
      mcFinish rc (PMResult.ok evm st2) =
        MCResult.ok
          { gas_left := evm.gas_left
            refund_counter := rc
            logs := []
            accounts_to_delete := []
            error := evm.error
            return_data := evm.output } st2) ∧
    (∀ (m : Message) (st : State) (t : Address) (rc : Int) (st1 : State)
        (evm : Evm) (st2 : State),
      m.target = some t →
      (if m.tx_env.authorizations ≠ [] then E.set_delegation m st
       else ((0 : Int), st)) = (rc, st1) →
      get_delegated_code_address m.code = none →
      process_message E f m st1 = PMResult.ok evm st2 →
      evm.error.isSome = true →
      process_message_call E (f + 1) m st =
        MCResult.ok
          { gas_left := evm.gas_left
            refund_counter := rc
            logs := []
            accounts_to_delete := []
            error := evm.error
            return_data := evm.output } st2) := by
  refine ⟨?_, ?_, ?_⟩
  · intro m st ht hcol
    simp only [process_message_call]
    rw [ht]
    try dsimp only
    rw [if_pos hcol]
  · intro rc evm st2 herr
    unfold mcFinish
    try dsimp only
    rw [if_pos herr]
  · intro m st t rc st1 evm st2 ht hauth hdel hrun herr
    simp only [process_message_call]
    rw [ht]
    try dsimp only
    rw [hauth]
    try dsimp only
    rw [hdel]
    try dsimp only
    rw [hrun]
    unfold mcFinish
    try dsimp only
    rw [if_pos herr]

/-- C9 witness: creating at 0xBB when its nonce is already 1 collides;
and the invalid-opcode frame of `c2Msg` surfaces through `mcFinish`
and through a full `process_message_call` run with its logs, deletions
and refund counter dropped. -/
theorem claim9_witness :
    (process_message_call stubExt 1 c9CreateMsg c9St =
      MCResult.ok
        { gas_left := 0
          refund_counter := 0
          logs := []
          accounts_to_delete := []
          error := some EvmError.addressCollision
          return_data := [] } c9St) ∧
    (mcFinish 3 (PMResult.ok c2ErrFrame emptySt) =
      MCResult.ok
        { gas_left := c2ErrFrame.gas_left
          refund_counter := 3
          logs := []
          accounts_to_delete := []
          error := c2ErrFrame.error
          return_data := c2ErrFrame.output } emptySt) ∧
    (process_message_call stubExt 6 c2Msg emptySt =
      MCResult.ok
        { gas_left := c2ErrFrame.gas_left
          refund_counter := 0
          logs := []
          accounts_to_delete := []
          error := c2ErrFrame.error
          return_data := c2ErrFrame.output } emptySt) := by
  refine ⟨?_, ?_, ?_⟩
  · exact (claim9_toplevel_output stubExt 0).1 c9CreateMsg c9St rfl rfl
  · exact (claim9_toplevel_output stubExt 0).2.1 3 c2ErrFrame emptySt rfl
  · exact (claim9_toplevel_output stubExt 5).2.2 c2Msg emptySt 0xBB 0 emptySt
      c2ErrFrame emptySt rfl rfl rfl rfl rfl

end EvmSpec
